import Mathlib

/-!
# masterpassword: a shallow embedding of `masterpassword/masterpassword.go`

The Go package exposes `GetPasswordTypeMap` and `Password`.  `Password` checks the
password type, stretches the master password with scrypt, computes an
HMAC-SHA256 seed for the site, selects a template with the first seed byte
and renders it with the following seed bytes.

Modelling conventions.

* A Go `[]byte` is a `List Nat` (`Bytes`); a well-formed one has every element
  below 256 (`IsBytes`).  `username` and `sitename` are Go strings that the code
  uses only through `[]byte(s)` and `len(s)`, so they are modelled by their bytes.
* `passwordType`, the templates, the character classes and the returned
  password are Lean `String`s.  Every string of the two tables is ASCII
  (`tables_ascii`), so indexing a table string by byte, as Go does, is
  indexing it by character.
* A Go map literal is an association list in the order of the source; a map
  index is `List.lookup`.
* Go's `(string, error)` result is a pair `String × Option String`, the error
  being represented by its message and `none` standing for `nil`.  A run-time
  panic (index out of range, integer division by zero) is the outer `none` of
  `Option (String × Option String)`.
* `scrypt.Key` and HMAC-SHA256 come from libraries outside the repository and
  are parameters (`Primitives`).
* The package variables `characterMap` and `templateMap` are the only state of the
  package.  `Password` is the call in the initial state; `PasswordSt` and
  `GetPasswordTypeMapSt` take the package state as an argument and return the state
  after the call (`PasswordSt_initial` relates the two).
-/

namespace MasterPassword

/-- A Go byte slice. -/
abbrev Bytes := List Nat

/-- Every element is a byte value. -/
def IsBytes (b : Bytes) : Prop := ∀ x ∈ b, x < 256

instance (b : Bytes) : Decidable (IsBytes b) :=
  inferInstanceAs (Decidable (∀ x ∈ b, x < 256))

def VERSION : String := "1.0.0"

def mpN : Nat := 32768
def mpR : Nat := 8
def mpP : Nat := 2
def mpDkLen : Nat := 64

/-- The Go map `characterMap`, entries in source order. -/
def characterMap : List (Char × String) :=
  [('V', "AEIOU"),
   ('C', "BCDFGHJKLMNPQRSTVWXYZ"),
   ('A', "AEIOUBCDFGHJKLMNPQRSTVWXYZ"),
   ('v', "aeiou"),
   ('c', "bcdfghjklmnpqrstvwxyz"),
   ('a', "AEIOUaeiouBCDFGHJKLMNPQRSTVWXYZbcdfghjklmnpqrstvwxyz"),
   ('n', "0123456789"),
   ('o', "@&%?,=[]_:-+*$#!'^~;()/."),
   ('x', "AEIOUaeiouBCDFGHJKLMNPQRSTVWXYZbcdfghjklmnpqrstvwxyz0123456789!@#$%^&*()")]

/-- The Go expression `characterMap[r]`: the zero value `""` for an absent key. -/
def characterMapAt (r : Char) : String :=
  (characterMap.lookup r).getD ""

structure Template where
  maps : List String
  /-- English description of the password output. -/
  Description : String
deriving DecidableEq, Repr

/-- The Go map `templateMap`, entries in source order. -/
def templateMap : List (String × Template) :=
  [("x", ⟨["anoxxxxxxxxxxxxxxxxx", "axxxxxxxxxxxxxxxxxno"], "20 characters, contains symbols"⟩),
   ("l", ⟨["CvcvnoCvcvCvcv", "CvcvCvcvnoCvcv", "CvcvCvcvCvcvno", "CvccnoCvcvCvcv",
           "CvccCvcvnoCvcv", "CvccCvcvCvcvno", "CvcvnoCvccCvcv", "CvcvCvccnoCvcv",
           "CvcvCvccCvcvno", "CvcvnoCvcvCvcc", "CvcvCvcvnoCvcc", "CvcvCvcvCvccno",
           "CvccnoCvccCvcv", "CvccCvccnoCvcv", "CvccCvccCvcvno", "CvcvnoCvccCvcc",
           "CvcvCvccnoCvcc", "CvcvCvccCvccno", "CvccnoCvcvCvcc", "CvccCvcvnoCvcc",
           "CvccCvcvCvccno"], "Copy-friendly, 14 characters, symbols"⟩),
   ("m", ⟨["CvcnoCvc", "CvcCvcno"], "Copy-friendly, 8 characters, symbols"⟩),
   ("s", ⟨["Cvcn"], "Copy-friendly, 4 characters, no symbols"⟩),
   ("b", ⟨["aaanaaan", "aannaaan", "aaannaaa"], "8 characters, no symbols"⟩),
   ("i", ⟨["nnnn"], "4 numbers"⟩),
   ("n", ⟨["cvccvcvcv"], "9 letter name"⟩),
   ("p", ⟨["cvcc cvc cvccvcv cvc", "cvc cvccvcvcv cvcv", "cv cvccv cvc cvcvccv"],
          "20 character sentence"⟩)]

/-- GetPasswordTypeMap returns the map of password type codes. -/
def GetPasswordTypeMap : List (String × Template) :=
  templateMap

/-- The two library primitives `Password` calls: `scrypt.Key(password, salt, N, r, p, keyLen)`,
which returns the key or an error, and HMAC-SHA256 of a message under a key. -/
structure Primitives where
  scryptKey : Bytes → Bytes → Nat → Nat → Nat → Nat → Except String Bytes
  hmacSha256 : Bytes → Bytes → Bytes

/-- The Go conversion `[]byte(s)` for an ASCII string literal. -/
def bytesOfAscii (s : String) : Bytes :=
  s.toList.map Char.toNat

/-- The Go conversion `uint32(n)` of an `int`: reduction modulo 2^32. -/
def uint32 (n : Int) : Nat :=
  (n % 2 ^ 32).toNat

/-- The four bytes `binary.BigEndian.PutUint32` stores for the 32-bit value `v`. -/
def putUint32BE (v : Nat) : Bytes :=
  [(v >>> 24) % 256, (v >>> 16) % 256, (v >>> 8) % 256, v % 256]

/-- One iteration of the rendering loop of `Password` (source lines 125-132),
at index `i` with the buffer contents `passwordBuffer`. -/
def renderStep (template : String) (message : Bytes) (passwordBuffer : String) (i : Nat) :
    Option String :=
  match message[i + 1]? with
  | none => none
  | some m =>
    let seedChar := m &&& 0xFF
    match template.toList[i]? with
    | none => none
    | some templateChar =>
      if templateChar = ' ' then
        some (passwordBuffer ++ " ")
      else
        let characterClass := characterMapAt templateChar
        if characterClass.length = 0 then
          none
        else
          match characterClass.toList[seedChar % characterClass.length]? with
          | none => none
          | some char => some (passwordBuffer ++ String.singleton char)

/-- The rendering loop of `Password` (source lines 122-135):
`for i := 0; i < len(template); i++`, starting from the empty buffer. -/
def renderTemplate (template : String) (message : Bytes) : Option String :=
  (List.range template.length).foldlM (renderStep template message) ""

/-- The template selection of `Password` (source lines 117-120). -/
def selectTemplate (passwordType : String) (message : Bytes) : Option String :=
  match message[0]? with
  | none => none
  | some m0 =>
    let templateIndex := m0 &&& 0xff
    let possibleTemplates := ((templateMap.lookup passwordType).getD ⟨[], ""⟩).maps
    if possibleTemplates.length = 0 then
      none
    else
      possibleTemplates[templateIndex % possibleTemplates.length]?

/-- The constant `constantSaltBytes` of `Password` (source line 82). -/
def constantSaltBytes : Bytes :=
  bytesOfAscii "com.lyndir.masterpassword"

/-- The salt `masterSalt` that `Password` builds (source lines 84-91). -/
def masterSalt (username : Bytes) : Bytes :=
  let usernameBytes := username
  let usernameLenBytes := putUint32BE (uint32 (username.length : Int))
  let masterSalt : Bytes := []
  let masterSalt := masterSalt ++ constantSaltBytes
  let masterSalt := masterSalt ++ usernameLenBytes
  let masterSalt := masterSalt ++ usernameBytes
  masterSalt

/-- The buffer `sitePasswordInfo` that `Password` builds (source lines 98-109). -/
def sitePasswordInfo (sitename : Bytes) (siteCounter : Int) : Bytes :=
  let sitenameBytes := sitename
  let sitenameLenBytes := putUint32BE (uint32 (sitename.length : Int))
  let sitenameCounterBytes := putUint32BE (uint32 siteCounter)
  let sitePasswordInfo : Bytes := []
  let sitePasswordInfo := sitePasswordInfo ++ constantSaltBytes
  let sitePasswordInfo := sitePasswordInfo ++ sitenameLenBytes
  let sitePasswordInfo := sitePasswordInfo ++ sitenameBytes
  let sitePasswordInfo := sitePasswordInfo ++ sitenameCounterBytes
  sitePasswordInfo

/-- The function `Password` of the package. -/
def Password (prim : Primitives) (username sitename : Bytes) (siteCounter : Int)
    (passwordType : String) (masterPassword : Bytes) : Option (String × Option String) :=
  match templateMap.lookup passwordType with
  | none => some ("", some ("unknown password type: " ++ passwordType))
  | some _ =>
    match prim.scryptKey masterPassword (masterSalt username) mpN mpR mpP mpDkLen with
    | .error err => some ("", some err)
    | .ok masterKey =>
      let message := prim.hmacSha256 masterKey (sitePasswordInfo sitename siteCounter)
      match selectTemplate passwordType message with
      | none => none
      | some template =>
        match renderTemplate template message with
        | none => none
        | some password => some (password, none)


/-- The character the rendering loop emits for the template symbol `tc` and the seed byte `sb`. -/
def renderedChar (tc : Char) (sb : Nat) : Char :=
  if tc = ' ' then ' '
  else ((characterMapAt tc).toList[(sb &&& 0xFF) % (characterMapAt tc).length]?).getD ' '

/-- The character at position `i` of the rendering of `t` from the seed `msg`. -/
def renderedAt (t : String) (msg : Bytes) (i : Nat) : Char :=
  renderedChar ((t.toList[i]?).getD ' ') ((msg[i + 1]?).getD 0)

/-- A template the loop can render from a 32-byte seed: at most 31 symbols, each a space or
a key of `characterMap` with a non-empty class. -/
def TemplateOK (t : String) : Prop :=
  t.length ≤ 31 ∧ ∀ c ∈ t.toList, c ≠ ' ' → (characterMapAt c).length ≠ 0

instance (t : String) : Decidable (TemplateOK t) :=
  inferInstanceAs (Decidable (_ ∧ _))

/-- A primitive pair for examples: scrypt returns `masterKey`, HMAC returns `seed`. -/
def stubPrim (masterKey seed : Bytes) : Primitives :=
  ⟨fun _ _ _ _ _ _ => .ok masterKey, fun _ _ => seed⟩

/-- A primitive pair for examples: scrypt reports the error `err`. -/
def failingPrim (err : String) : Primitives :=
  ⟨fun _ _ _ _ _ _ => .error err, fun _ _ => []⟩

def exampleUser : Bytes := bytesOfAscii "user"
def exampleSite : Bytes := bytesOfAscii "example.com"
def exampleMaster : Bytes := bytesOfAscii "password"

/-- The 32 bytes that HMAC-SHA256 returns in `Password` for username "user", sitename
"example.com", counter 3 and master password "password" with the library scrypt; here they
are data, the two primitives being parameters. -/
def exampleSeed : Bytes :=
  [235, 196, 102, 167, 190, 96, 24, 5, 38, 199, 198, 165, 177, 22, 74, 182, 158, 238, 236, 173,
   102, 82, 5, 73, 204, 224, 84, 223, 179, 12, 57, 157]

def examplePrim : Primitives := stubPrim [] exampleSeed

/-- The catalog entry of type p. -/
def exampleEntry : Template :=
  ⟨["cvcc cvc cvccvcv cvc", "cvc cvccvcvcv cvcv", "cv cvccv cvc cvcvccv"], "20 character sentence"⟩

/-- A seed that differs from `exampleSeed` at index 0 (238 instead of 235, both 1 modulo 3), at
the indices 4 and 14 aligned with the spaces of "cvc cvccvcvcv cvcv", and at the indices
19 to 31 that lie beyond that template. -/
def exampleSeed2 : Bytes :=
  [238, 196, 102, 167, 0, 96, 24, 5, 38, 199, 198, 165, 177, 22, 255, 182, 158, 238, 236, 1,
   2, 3, 4, 5, 6, 7, 8, 9, 10, 11, 12, 13]

/-- The five reference vectors of `TestPassword` quoted in the specification: username, sitename,
counter, type, master password and expected password, together with the 32-byte seed that the
library scrypt and HMAC-SHA256 yield for them; the seeds are data here, the two primitives
being parameters. -/
def referenceVectors : List (String × String × Int × String × String × String × Bytes) :=
  [("pahK5xi7,", "ojohbejahy7Eohei", 13, "x", "roxacheedaphahH2", "b2'fw)fK#&f3JF7SMg8L",
     [174, 83, 152, 136, 106, 120, 71, 250, 233, 136, 140, 250, 199, 232, 157, 131, 168, 91,
      107, 132, 162, 81, 204, 57, 255, 134, 36, 44, 201, 94, 157, 224]),
   ("IeS1ohch,", "fiex2phooGhaeR0e", 11, "l", "chahc7maengohX9u", "Luco5%FalzKoju",
     [174, 155, 4, 106, 78, 135, 218, 192, 200, 50, 104, 70, 128, 6, 104, 83, 171, 1, 15, 121,
      138, 178, 220, 28, 182, 205, 180, 85, 1, 206, 153, 166]),
   ("juighaB5,", "kaNeiw4aiw1waeDi", 25, "m", "Roihiy7Phah4choo", "RogDup7#",
     [165, 244, 98, 46, 2, 54, 74, 187, 62, 96, 11, 159, 50, 92, 77, 166, 220, 23, 111, 88, 46,
      40, 193, 61, 161, 105, 47, 145, 59, 140, 222, 105]),
   ("am8ePh4i,", "iuWeiK7ieY4AefoD", 64, "s", "Eir5hi9eishu8Oos", "Cey8",
     [249, 106, 81, 250, 48, 206, 252, 30, 247, 179, 73, 65, 197, 49, 186, 25, 225, 163, 37,
      63, 86, 111, 219, 100, 255, 48, 179, 134, 170, 255, 21, 247]),
   ("Wieph2oo,", "die0ooj3chiGhiaX", 20, "i", "quaJu8aeTh7vienu", "0931",
     [83, 50, 69, 23, 171, 216, 81, 196, 252, 143, 108, 232, 223, 169, 28, 16, 144, 33, 6, 182,
      37, 94, 190, 127, 82, 146, 187, 223, 177, 69, 38, 184])]

/-- A primitive pair for examples whose HMAC depends on the message: the digest is the last 32
bytes of the message in reverse order, padded with zeros. -/
def counterPrim : Primitives :=
  ⟨fun _ _ _ _ _ _ => .ok [], fun _ m => (List.range 32).map (fun i => m.reverse.getD i 0)⟩

/-- The package-level variables of the Go package: the two maps `characterMap` and
`templateMap`.  They are the only state a call of the package can read or write. -/
structure PackageState where
  characterMap : List (Char × String)
  templateMap : List (String × Template)

/-- The package state after initialisation: the two map literals of the source. -/
def initialState : PackageState :=
  ⟨characterMap, templateMap⟩

/-- One iteration of the rendering loop (source lines 125-132), the map `characterMap` being
read from the package state. -/
def renderStepSt (st : PackageState) (template : String) (message : Bytes)
    (passwordBuffer : String) (i : Nat) : Option String :=
  match message[i + 1]? with
  | none => none
  | some m =>
    let seedChar := m &&& 0xFF
    match template.toList[i]? with
    | none => none
    | some templateChar =>
      if templateChar = ' ' then
        some (passwordBuffer ++ " ")
      else
        let characterClass := (st.characterMap.lookup templateChar).getD ""
        if characterClass.length = 0 then
          none
        else
          match characterClass.toList[seedChar % characterClass.length]? with
          | none => none
          | some char => some (passwordBuffer ++ String.singleton char)

/-- The function `Password` with the package state explicit: every use of `templateMap` and
`characterMap` reads the state, and the state after the call is returned with the result
(the outer `none` of the result is a run-time panic). -/
def PasswordSt (prim : Primitives) (username sitename : Bytes) (siteCounter : Int)
    (passwordType : String) (masterPassword : Bytes) (st : PackageState) :
    Option (String × Option String) × PackageState :=
  match st.templateMap.lookup passwordType with
  | none => (some ("", some ("unknown password type: " ++ passwordType)), st)
  | some _ =>
    match prim.scryptKey masterPassword (masterSalt username) mpN mpR mpP mpDkLen with
    | .error err => (some ("", some err), st)
    | .ok masterKey =>
      let message := prim.hmacSha256 masterKey (sitePasswordInfo sitename siteCounter)
      match message[0]? with
      | none => (none, st)
      | some m0 =>
        let templateIndex := m0 &&& 0xff
        let possibleTemplates := ((st.templateMap.lookup passwordType).getD ⟨[], ""⟩).maps
        if possibleTemplates.length = 0 then
          (none, st)
        else
          match possibleTemplates[templateIndex % possibleTemplates.length]? with
          | none => (none, st)
          | some template =>
            match (List.range template.length).foldlM
                (renderStepSt st template message) "" with
            | none => (none, st)
            | some password => (some (password, none), st)

/-- A package state in which the caller has deleted the key "p" from the map that
`GetPasswordTypeMap` returned. -/
def mutatedState : PackageState :=
  ⟨characterMap, templateMap.filter (fun e => e.1 != "p")⟩

theorem renderStep_eq (t : String) (msg : Bytes) (buf : String) (i : Nat)
    (hm : msg.length = 32) (ht : TemplateOK t) (hi : i < t.length) :
    renderStep t msg buf i
      = some (buf ++ String.singleton
          (renderedChar ((t.toList[i]?).getD ' ') ((msg[i + 1]?).getD 0))) := by
  obtain ⟨hlen, hcls⟩ := ht
  have hi1 : i + 1 < msg.length := by omega
  have hit : i < t.toList.length := by simpa using hi
  have h1 : msg[i + 1]? = some msg[i + 1] := List.getElem?_eq_getElem hi1
  have h2 : t.toList[i]? = some t.toList[i] := List.getElem?_eq_getElem hit
  unfold renderStep
  rw [h1, h2]
  simp only [Option.getD_some]
  by_cases hsp : t.toList[i] = ' '
  · simp only [hsp, renderedChar, if_true]
    rfl
  · have hmem : t.toList[i] ∈ t.toList := List.getElem_mem hit
    have hne := hcls _ hmem hsp
    have hpos : 0 < (characterMapAt t.toList[i]).length := Nat.pos_of_ne_zero hne
    have hidx : (msg[i + 1] &&& 0xFF) % (characterMapAt t.toList[i]).length
        < (characterMapAt t.toList[i]).toList.length := by
      simpa using Nat.mod_lt _ hpos
    simp only [hsp, if_false, hne, renderedChar]
    rw [List.getElem?_eq_getElem hidx]
    simp


theorem foldlM_renderStep (t : String) (msg : Bytes) (hm : msg.length = 32) (ht : TemplateOK t) :
    ∀ (l : List Nat) (buf : String), (∀ i ∈ l, i < t.length) →
      l.foldlM (renderStep t msg) buf = some (buf ++ String.mk (l.map (renderedAt t msg))) := by
  intro l
  induction l with
  | nil =>
    intro buf _
    simp only [List.foldlM_nil, List.map_nil]
    congr 1
    apply String.ext
    simp
  | cons i l ih =>
    intro buf hl
    have hi : i < t.length := hl i (List.mem_cons_self _ _)
    have hl2 : ∀ j ∈ l, j < t.length := fun j hj => hl j (List.mem_cons_of_mem _ hj)
    rw [List.foldlM_cons, renderStep_eq t msg buf i hm ht hi]
    simp only [Option.some_bind, Option.bind_eq_bind]
    rw [ih _ hl2]
    congr 1
    apply String.ext
    simp [renderedAt, String.singleton]

theorem renderTemplate_eq (t : String) (msg : Bytes) (hm : msg.length = 32) (ht : TemplateOK t) :
    renderTemplate t msg = some (String.mk ((List.range t.length).map (renderedAt t msg))) := by
  unfold renderTemplate
  rw [foldlM_renderStep t msg hm ht _ "" (fun i hi => List.mem_range.mp hi)]
  congr 1

theorem lookup_mem {α β : Type} [BEq α] [LawfulBEq α] (l : List (α × β)) (k : α) (v : β) :
    l.lookup k = some v → (k, v) ∈ l := by
  induction l with
  | nil => simp
  | cons e l ih =>
    obtain ⟨a, b⟩ := e
    intro h
    rw [List.lookup_cons] at h
    by_cases hk : k == a
    · simp only [hk] at h
      have hka : k = a := eq_of_beq hk
      have hb : b = v := by simpa using h
      simp [hka, hb]
    · have hk2 : (k == a) = false := by simpa using hk
      simp only [hk2] at h
      exact List.mem_cons_of_mem _ (ih h)

theorem catalog_templates_ok : ∀ e ∈ templateMap, ∀ t ∈ e.2.maps, TemplateOK t := by
  decide

theorem catalog_nonempty : ∀ e ∈ templateMap, e.2.maps.length ≠ 0 := by
  decide

/-- Every string of the two tables is ASCII, so its bytes are its characters. -/
theorem tables_ascii :
    (∀ e ∈ characterMap, e.1.toNat < 128 ∧ ∀ c ∈ e.2.toList, c.toNat < 128)
      ∧ (∀ e ∈ templateMap, ∀ t ∈ e.2.maps, ∀ c ∈ t.toList, c.toNat < 128) := by
  decide

/-- A seed byte is unchanged by the mask `& 0xFF`. -/
theorem and_ff_of_lt (b : Nat) (hb : b < 256) : b &&& 0xFF = b := by
  have h := Nat.and_pow_two_sub_one_eq_mod b 8
  simp only [Nat.reducePow, Nat.add_one_sub_one] at h
  have h2 : (0xFF : Nat) = 256 - 1 := by norm_num
  rw [h2, h, Nat.mod_eq_of_lt hb]

theorem lookup_none_of_not_key (pt : String)
    (h : pt ∉ ["x", "l", "m", "s", "b", "i", "n", "p"]) : templateMap.lookup pt = none := by
  rw [List.lookup_eq_none_iff]
  intro e he
  have hk : e.1 ∈ templateMap.map Prod.fst := List.mem_map_of_mem _ he
  have hne : pt ≠ e.1 := by
    intro hpt
    apply h
    rw [hpt]
    exact hk
  simpa using hne

theorem Password_known (prim : Primitives) (username sitename : Bytes) (siteCounter : Int)
    (passwordType : String) (masterPassword : Bytes) (entry : Template) (masterKey : Bytes)
    (hk : templateMap.lookup passwordType = some entry)
    (hkey : prim.scryptKey masterPassword (masterSalt username) mpN mpR mpP mpDkLen
      = .ok masterKey) :
    Password prim username sitename siteCounter passwordType masterPassword
      = (selectTemplate passwordType
          (prim.hmacSha256 masterKey (sitePasswordInfo sitename siteCounter))).bind
          (fun t => (renderTemplate t
            (prim.hmacSha256 masterKey (sitePasswordInfo sitename siteCounter))).map
              (fun pw => (pw, none))) := by
  unfold Password
  simp only [hk, hkey]
  cases selectTemplate passwordType
      (prim.hmacSha256 masterKey (sitePasswordInfo sitename siteCounter)) with
  | none => rfl
  | some t =>
    simp only [Option.some_bind]
    cases renderTemplate t (prim.hmacSha256 masterKey (sitePasswordInfo sitename siteCounter)) with
    | none => rfl
    | some pw => rfl

theorem selectTemplate_known (passwordType : String) (entry : Template) (seed : Bytes)
    (hk : templateMap.lookup passwordType = some entry) (hlen : seed.length = 32) :
    ∃ b0 t, seed[0]? = some b0 ∧ t ∈ entry.maps
      ∧ entry.maps[(b0 &&& 0xff) % entry.maps.length]? = some t
      ∧ selectTemplate passwordType seed = some t := by
  have h0 : 0 < seed.length := by omega
  have hmem := lookup_mem _ _ _ hk
  have hne : entry.maps.length ≠ 0 := catalog_nonempty _ hmem
  have hpos : 0 < entry.maps.length := Nat.pos_of_ne_zero hne
  have hidx : (seed[0] &&& 0xff) % entry.maps.length < entry.maps.length := Nat.mod_lt _ hpos
  refine ⟨seed[0], entry.maps[(seed[0] &&& 0xff) % entry.maps.length], ?_, ?_, ?_, ?_⟩
  · exact List.getElem?_eq_getElem h0
  · exact List.getElem_mem _
  · exact List.getElem?_eq_getElem hidx
  · unfold selectTemplate
    rw [List.getElem?_eq_getElem h0]
    simp only [hk, Option.getD_some, hne, if_false]
    exact List.getElem?_eq_getElem hidx

/-- C1. For a passwordType that is none of the eight catalog codes, Password returns the empty
string and the error "unknown password type: " followed by the code, whatever the other
arguments and whatever the scrypt and HMAC primitives do. -/
theorem Password_unknown_type (prim : Primitives) (username sitename : Bytes)
    (siteCounter : Int) (passwordType : String) (masterPassword : Bytes)
    (h : passwordType ∉ ["x", "l", "m", "s", "b", "i", "n", "p"]) :
    Password prim username sitename siteCounter passwordType masterPassword
      = some ("", some ("unknown password type: " ++ passwordType)) := by
  unfold Password
  rw [lookup_none_of_not_key passwordType h]

theorem Password_unknown_type_witness :
    "q" ∉ ["x", "l", "m", "s", "b", "i", "n", "p"]
      ∧ Password (failingPrim "scrypt: parameters are invalid") exampleUser exampleSite 1 "q"
          exampleMaster
        = some ("", some ("unknown password type: " ++ "q")) :=
  ⟨by decide,
   Password_unknown_type (failingPrim "scrypt: parameters are invalid") exampleUser exampleSite
     1 "q" exampleMaster (by decide)⟩

theorem renderTemplate_spec (t : String) (msg : Bytes) (hm : msg.length = 32)
    (ht : TemplateOK t) :
    ∃ pw, renderTemplate t msg = some pw ∧ pw.length = t.length
      ∧ ∀ i, i < t.length → pw.toList[i]? = some (renderedAt t msg i) := by
  refine ⟨_, renderTemplate_eq t msg hm ht, ?_, ?_⟩
  · show ((List.range t.length).map (renderedAt t msg)).length = t.length
    simp
  · intro i hi
    simp [List.getElem?_range hi]

theorem catalog_templates_nonempty : ∀ e ∈ templateMap, ∀ t ∈ e.2.maps, t.length ≠ 0 := by
  decide

theorem mem_keys_of_lookup (pt : String) (entry : Template)
    (hk : templateMap.lookup pt = some entry) : pt ∈ GetPasswordTypeMap.map Prod.fst := by
  have h := lookup_mem _ _ _ hk
  exact List.mem_map_of_mem Prod.fst h

theorem lookup_none_iff_not_key (pt : String) :
    templateMap.lookup pt = none ↔ pt ∉ GetPasswordTypeMap.map Prod.fst := by
  constructor
  · intro h hmem
    rw [List.lookup_eq_none_iff] at h
    obtain ⟨e, he, hpe⟩ := List.mem_map.mp hmem
    have hne := h e he
    rw [hpe] at hne
    simp at hne
  · intro h
    exact lookup_none_of_not_key pt h

/-- C2. Given an HMAC primitive that yields 32-byte digests, Password always returns: the error
is non-nil exactly when the type is not a catalog key or scrypt reports an error, and then the
password is the empty string; with a nil error the password is non-empty. -/
theorem Password_all_or_nothing (prim : Primitives) (username sitename : Bytes)
    (siteCounter : Int) (passwordType : String) (masterPassword : Bytes)
    (hH : ∀ k m, (prim.hmacSha256 k m).length = 32) :
    ∃ pw err, Password prim username sitename siteCounter passwordType masterPassword
        = some (pw, err)
      ∧ (err ≠ none ↔ (passwordType ∉ GetPasswordTypeMap.map Prod.fst
            ∨ ∃ e, prim.scryptKey masterPassword (masterSalt username) mpN mpR mpP mpDkLen
                = .error e))
      ∧ (err ≠ none → pw = "")
      ∧ (err = none → pw ≠ "") := by
  cases hk : templateMap.lookup passwordType with
  | none =>
    refine ⟨"", some ("unknown password type: " ++ passwordType), ?_, ?_, ?_, ?_⟩
    · unfold Password
      rw [hk]
    · have hnk := (lookup_none_iff_not_key passwordType).mp hk
      simp [hnk]
    · intro _; rfl
    · intro h; cases h
  | some entry =>
    have hin := mem_keys_of_lookup passwordType entry hk
    cases hkey : prim.scryptKey masterPassword (masterSalt username) mpN mpR mpP mpDkLen with
    | error e =>
      refine ⟨"", some e, ?_, ?_, ?_, ?_⟩
      · unfold Password
        simp only [hk, hkey]
      · simp
      · intro _; rfl
      · intro h; cases h
    | ok masterKey =>
      obtain ⟨b0, t, _, htmem, _, hsel⟩ :=
        selectTemplate_known passwordType entry _ hk
          (hH masterKey (sitePasswordInfo sitename siteCounter))
      have hmem := lookup_mem _ _ _ hk
      obtain ⟨pw, hpw, hlen, _⟩ :=
        renderTemplate_spec t _ (hH masterKey (sitePasswordInfo sitename siteCounter))
          (catalog_templates_ok _ hmem t htmem)
      refine ⟨pw, none, ?_, ?_, ?_, ?_⟩
      · rw [Password_known prim username sitename siteCounter passwordType masterPassword
          entry masterKey hk hkey, hsel, Option.some_bind, hpw]
        rfl
      · simp [hin]
      · intro h; exact absurd rfl h
      · intro _ hempty
        have h0 : t.length ≠ 0 := catalog_templates_nonempty _ hmem t htmem
        rw [hempty] at hlen
        exact h0 hlen.symm

theorem Password_all_or_nothing_witness :
    (∀ k m, (examplePrim.hmacSha256 k m).length = 32)
      ∧ ∃ pw err, Password examplePrim exampleUser exampleSite 3 "p" exampleMaster
          = some (pw, err)
        ∧ (err ≠ none ↔ ("p" ∉ GetPasswordTypeMap.map Prod.fst
              ∨ ∃ e, examplePrim.scryptKey exampleMaster (masterSalt exampleUser)
                  mpN mpR mpP mpDkLen = .error e))
        ∧ (err ≠ none → pw = "")
        ∧ (err = none → pw ≠ "") :=
  ⟨fun _ _ => rfl,
   Password_all_or_nothing examplePrim exampleUser exampleSite 3 "p" exampleMaster
     (fun _ _ => rfl)⟩

/-- C3. For a known passwordType and a 32-byte seed returned by the HMAC step, the template
Password renders is the catalog entry's template at index seed[0] mod the number of templates
of the type, the templates being in the order of the catalog. -/
theorem Password_selects_template (prim : Primitives) (username sitename : Bytes)
    (siteCounter : Int) (passwordType : String) (masterPassword : Bytes)
    (entry : Template) (masterKey seed : Bytes)
    (hk : templateMap.lookup passwordType = some entry)
    (hkey : prim.scryptKey masterPassword (masterSalt username) mpN mpR mpP mpDkLen
      = .ok masterKey)
    (hseed : prim.hmacSha256 masterKey (sitePasswordInfo sitename siteCounter) = seed)
    (hlen : seed.length = 32) (hb : IsBytes seed) :
    ∃ b0 t pw, seed[0]? = some b0
      ∧ entry.maps[b0 % entry.maps.length]? = some t
      ∧ selectTemplate passwordType seed = some t
      ∧ renderTemplate t seed = some pw
      ∧ Password prim username sitename siteCounter passwordType masterPassword
          = some (pw, none) := by
  obtain ⟨b0, t, hb0, htmem, hidx, hsel⟩ := selectTemplate_known passwordType entry seed hk hlen
  have hmem := lookup_mem _ _ _ hk
  obtain ⟨pw, hpw, _, _⟩ := renderTemplate_spec t seed hlen (catalog_templates_ok _ hmem t htmem)
  have hb0lt : b0 < 256 := hb b0 (List.getElem?_mem hb0)
  refine ⟨b0, t, pw, hb0, ?_, hsel, hpw, ?_⟩
  · rw [← and_ff_of_lt b0 hb0lt]
    exact hidx
  · rw [Password_known prim username sitename siteCounter passwordType masterPassword
      entry masterKey hk hkey, hseed, hsel, Option.some_bind, hpw]
    rfl

theorem Password_selects_template_witness :
    templateMap.lookup "p" = some exampleEntry
      ∧ examplePrim.scryptKey exampleMaster (masterSalt exampleUser) mpN mpR mpP mpDkLen
          = .ok []
      ∧ examplePrim.hmacSha256 [] (sitePasswordInfo exampleSite 3) = exampleSeed
      ∧ exampleSeed.length = 32 ∧ IsBytes exampleSeed
      ∧ ∃ b0 t pw, exampleSeed[0]? = some b0
        ∧ exampleEntry.maps[b0 % exampleEntry.maps.length]? = some t
        ∧ selectTemplate "p" exampleSeed = some t
        ∧ renderTemplate t exampleSeed = some pw
        ∧ Password examplePrim exampleUser exampleSite 3 "p" exampleMaster
            = some (pw, none) :=
  ⟨by decide, rfl, rfl, by decide, by decide,
   Password_selects_template examplePrim exampleUser exampleSite 3 "p" exampleMaster
     exampleEntry [] exampleSeed (by decide) rfl rfl (by decide) (by decide)⟩

theorem characterMapAt_of_nonempty (c : Char) (h : (characterMapAt c).length ≠ 0) :
    characterMap.lookup c = some (characterMapAt c) := by
  unfold characterMapAt at h ⊢
  cases hl : characterMap.lookup c with
  | none =>
    rw [hl] at h
    exact absurd rfl h
  | some v => rfl

theorem renderStep_head (t : String) (a b : Nat) (rest : Bytes) (buf : String) (i : Nat) :
    renderStep t (a :: rest) buf i = renderStep t (b :: rest) buf i := by
  unfold renderStep
  simp only [List.getElem?_cons_succ]

theorem renderTemplate_head (t : String) (a b : Nat) (rest : Bytes) :
    renderTemplate t (a :: rest) = renderTemplate t (b :: rest) := by
  unfold renderTemplate
  have hf : renderStep t (a :: rest) = renderStep t (b :: rest) := by
    funext buf i
    exact renderStep_head t a b rest buf i
  rw [hf]

theorem renderedAt_spec (t : String) (seed : Bytes) (hlen : seed.length = 32)
    (hb : IsBytes seed) (ht : TemplateOK t) (i : Nat) (hi : i < t.length) :
    ∃ tc sb, t.toList[i]? = some tc ∧ seed[i + 1]? = some sb
      ∧ (tc = ' ' → renderedAt t seed i = ' ')
      ∧ (tc ≠ ' ' → ∃ cls ch, characterMap.lookup tc = some cls
            ∧ cls.toList[sb % cls.length]? = some ch ∧ renderedAt t seed i = ch) := by
  obtain ⟨hle, hcls⟩ := ht
  have hi1 : i + 1 < seed.length := by omega
  have hit : i < t.toList.length := by simpa using hi
  have h1 : seed[i + 1]? = some seed[i + 1] := List.getElem?_eq_getElem hi1
  have h2 : t.toList[i]? = some t.toList[i] := List.getElem?_eq_getElem hit
  have hsb : seed[i + 1] < 256 := hb _ (List.getElem_mem hi1)
  refine ⟨t.toList[i], seed[i + 1], h2, h1, ?_, ?_⟩
  · intro hsp
    unfold renderedAt renderedChar
    rw [h2, Option.getD_some, if_pos hsp]
  · intro hsp
    have hne := hcls _ (List.getElem_mem hit) hsp
    have hpos : 0 < (characterMapAt t.toList[i]).length := Nat.pos_of_ne_zero hne
    have hidx : seed[i + 1] % (characterMapAt t.toList[i]).length
        < (characterMapAt t.toList[i]).toList.length := by
      simpa using Nat.mod_lt _ hpos
    refine ⟨characterMapAt t.toList[i], (characterMapAt t.toList[i]).toList[
      seed[i + 1] % (characterMapAt t.toList[i]).length], characterMapAt_of_nonempty _ hne,
      List.getElem?_eq_getElem hidx, ?_⟩
    unfold renderedAt renderedChar
    rw [h2, h1, Option.getD_some, Option.getD_some, if_neg hsp, and_ff_of_lt _ hsb,
      List.getElem?_eq_getElem hidx, Option.getD_some]

/-- C4. For a known passwordType and a 32-byte seed, the returned password has the length of the
selected template; at each position it holds a space where the template holds a space, and
otherwise the character of index seed[i+1] mod the class length in the class of the template
symbol; and the rendering of the template does not depend on seed[0]. -/
theorem Password_renders_template (prim : Primitives) (username sitename : Bytes)
    (siteCounter : Int) (passwordType : String) (masterPassword : Bytes)
    (entry : Template) (masterKey seed : Bytes)
    (hk : templateMap.lookup passwordType = some entry)
    (hkey : prim.scryptKey masterPassword (masterSalt username) mpN mpR mpP mpDkLen
      = .ok masterKey)
    (hseed : prim.hmacSha256 masterKey (sitePasswordInfo sitename siteCounter) = seed)
    (hlen : seed.length = 32) (hb : IsBytes seed) :
    ∃ t pw, selectTemplate passwordType seed = some t
      ∧ Password prim username sitename siteCounter passwordType masterPassword
          = some (pw, none)
      ∧ pw.length = t.length
      ∧ (∀ i, i < t.length → ∃ tc sb, t.toList[i]? = some tc ∧ seed[i + 1]? = some sb
          ∧ (tc = ' ' → pw.toList[i]? = some ' ')
          ∧ (tc ≠ ' ' → ∃ cls ch, characterMap.lookup tc = some cls
                ∧ cls.toList[sb % cls.length]? = some ch ∧ pw.toList[i]? = some ch))
      ∧ (∀ b, renderTemplate t (b :: seed.tail) = some pw) := by
  obtain ⟨b0, t, hb0, htmem, _, hsel⟩ := selectTemplate_known passwordType entry seed hk hlen
  have hmem := lookup_mem _ _ _ hk
  have hok := catalog_templates_ok _ hmem t htmem
  obtain ⟨pw, hpw, hpwlen, hpwget⟩ := renderTemplate_spec t seed hlen hok
  refine ⟨t, pw, hsel, ?_, hpwlen, ?_, ?_⟩
  · rw [Password_known prim username sitename siteCounter passwordType masterPassword
      entry masterKey hk hkey, hseed, hsel, Option.some_bind, hpw]
    rfl
  · intro i hi
    obtain ⟨tc, sb, htc, hsb, hspace, hclass⟩ := renderedAt_spec t seed hlen hb hok i hi
    refine ⟨tc, sb, htc, hsb, ?_, ?_⟩
    · intro h
      rw [hpwget i hi, hspace h]
    · intro h
      obtain ⟨cls, ch, hcls, hch, hr⟩ := hclass h
      exact ⟨cls, ch, hcls, hch, by rw [hpwget i hi, hr]⟩
  · intro b
    cases seed with
    | nil => simp at hlen
    | cons a rest =>
      rw [List.tail_cons, renderTemplate_head t b a rest]
      exact hpw

theorem Password_renders_template_witness :
    templateMap.lookup "p" = some exampleEntry
      ∧ examplePrim.scryptKey exampleMaster (masterSalt exampleUser) mpN mpR mpP mpDkLen
          = .ok []
      ∧ examplePrim.hmacSha256 [] (sitePasswordInfo exampleSite 3) = exampleSeed
      ∧ exampleSeed.length = 32 ∧ IsBytes exampleSeed
      ∧ ∃ t pw, selectTemplate "p" exampleSeed = some t
        ∧ Password examplePrim exampleUser exampleSite 3 "p" exampleMaster
            = some (pw, none)
        ∧ pw.length = t.length
        ∧ (∀ i, i < t.length → ∃ tc sb, t.toList[i]? = some tc ∧ exampleSeed[i + 1]? = some sb
            ∧ (tc = ' ' → pw.toList[i]? = some ' ')
            ∧ (tc ≠ ' ' → ∃ cls ch, characterMap.lookup tc = some cls
                  ∧ cls.toList[sb % cls.length]? = some ch ∧ pw.toList[i]? = some ch))
        ∧ (∀ b, renderTemplate t (b :: exampleSeed.tail) = some pw) :=
  ⟨by decide, rfl, rfl, by decide, by decide,
   Password_renders_template examplePrim exampleUser exampleSite 3 "p" exampleMaster
     exampleEntry [] exampleSeed (by decide) rfl rfl (by decide) (by decide)⟩

theorem classes_have_no_space : ∀ e ∈ characterMap, ' ' ∉ e.2.toList := by
  decide

theorem no_space_in_class (c : Char) : ' ' ∉ (characterMapAt c).toList := by
  unfold characterMapAt
  cases hl : characterMap.lookup c with
  | none => simp
  | some v => exact classes_have_no_space _ (lookup_mem _ _ _ hl)

theorem renderedChar_eq_space_iff (tc : Char) (sb : Nat)
    (h : tc ≠ ' ' → (characterMapAt tc).length ≠ 0) : renderedChar tc sb = ' ' ↔ tc = ' ' := by
  constructor
  · intro hr
    by_contra hsp
    have hne := h hsp
    have hpos : 0 < (characterMapAt tc).length := Nat.pos_of_ne_zero hne
    have hidx : (sb &&& 0xFF) % (characterMapAt tc).length < (characterMapAt tc).toList.length := by
      simpa using Nat.mod_lt _ hpos
    unfold renderedChar at hr
    rw [if_neg hsp, List.getElem?_eq_getElem hidx, Option.getD_some] at hr
    exact no_space_in_class tc (hr ▸ List.getElem_mem hidx)
  · intro hsp
    unfold renderedChar
    rw [if_pos hsp]

theorem filter_length_eq_of_spaces (l1 : List Char) :
    ∀ l2 : List Char, l1.length = l2.length →
      (∀ i : Nat, l1[i]? = some ' ' ↔ l2[i]? = some ' ') →
      (l1.filter (fun c => decide (c ≠ ' '))).length
        = (l2.filter (fun c => decide (c ≠ ' '))).length := by
  induction l1 with
  | nil =>
    intro l2 hl _
    cases l2 with
    | nil => rfl
    | cons b l2 => simp at hl
  | cons a l1 ih =>
    intro l2 hl h
    cases l2 with
    | nil => simp at hl
    | cons b l2 =>
      have hl2 : l1.length = l2.length := by simpa using hl
      have htail : ∀ i : Nat, l1[i]? = some ' ' ↔ l2[i]? = some ' ' := by
        intro i
        have := h (i + 1)
        simpa using this
      have hhead : a = ' ' ↔ b = ' ' := by
        have := h 0
        simpa using this
      have ih2 := ih l2 hl2 htail
      by_cases ha : a = ' '
      · have hb2 : b = ' ' := hhead.mp ha
        simpa [ha, hb2] using ih2
      · have hb2 : ¬ b = ' ' := fun hb3 => ha (hhead.mpr hb3)
        simpa [ha, hb2] using ih2

/-- C5. For a known passwordType and a 32-byte seed, the returned password has as many non-space
characters as the selected template has non-space symbols, its position i holds a space exactly
when position i of the template does, and no character class contains a space. -/
theorem Password_shape (prim : Primitives) (username sitename : Bytes)
    (siteCounter : Int) (passwordType : String) (masterPassword : Bytes)
    (entry : Template) (masterKey seed : Bytes)
    (hk : templateMap.lookup passwordType = some entry)
    (hkey : prim.scryptKey masterPassword (masterSalt username) mpN mpR mpP mpDkLen
      = .ok masterKey)
    (hseed : prim.hmacSha256 masterKey (sitePasswordInfo sitename siteCounter) = seed)
    (hlen : seed.length = 32) :
    ∃ t pw, selectTemplate passwordType seed = some t
      ∧ Password prim username sitename siteCounter passwordType masterPassword
          = some (pw, none)
      ∧ (pw.toList.filter (fun c => decide (c ≠ ' '))).length
          = (t.toList.filter (fun c => decide (c ≠ ' '))).length
      ∧ (∀ i : Nat, pw.toList[i]? = some ' ' ↔ t.toList[i]? = some ' ')
      ∧ (∀ e ∈ characterMap, ' ' ∉ e.2.toList) := by
  obtain ⟨b0, t, hb0, htmem, _, hsel⟩ := selectTemplate_known passwordType entry seed hk hlen
  have hmem := lookup_mem _ _ _ hk
  have hok := catalog_templates_ok _ hmem t htmem
  obtain ⟨pw, hpw, hpwlen, hpwget⟩ := renderTemplate_spec t seed hlen hok
  have hlen2 : pw.toList.length = t.toList.length := by simpa using hpwlen
  have hpos : ∀ i : Nat, pw.toList[i]? = some ' ' ↔ t.toList[i]? = some ' ' := by
    intro i
    by_cases hi : i < t.length
    · have hit : i < t.toList.length := by simpa using hi
      rw [hpwget i hi, List.getElem?_eq_getElem hit]
      unfold renderedAt
      rw [List.getElem?_eq_getElem hit, Option.getD_some]
      simp only [Option.some.injEq]
      exact renderedChar_eq_space_iff _ _ (hok.2 _ (List.getElem_mem hit))
    · have hit : t.toList.length ≤ i := by simpa using hi
      have hip : pw.toList.length ≤ i := by omega
      rw [List.getElem?_eq_none hit, List.getElem?_eq_none hip]
  refine ⟨t, pw, hsel, ?_, filter_length_eq_of_spaces _ _ hlen2 hpos, hpos,
    classes_have_no_space⟩
  rw [Password_known prim username sitename siteCounter passwordType masterPassword
    entry masterKey hk hkey, hseed, hsel, Option.some_bind, hpw]
  rfl

theorem Password_shape_witness :
    templateMap.lookup "p" = some exampleEntry
      ∧ examplePrim.scryptKey exampleMaster (masterSalt exampleUser) mpN mpR mpP mpDkLen
          = .ok []
      ∧ examplePrim.hmacSha256 [] (sitePasswordInfo exampleSite 3) = exampleSeed
      ∧ exampleSeed.length = 32
      ∧ ∃ t pw, selectTemplate "p" exampleSeed = some t
        ∧ Password examplePrim exampleUser exampleSite 3 "p" exampleMaster
            = some (pw, none)
        ∧ (pw.toList.filter (fun c => decide (c ≠ ' '))).length
            = (t.toList.filter (fun c => decide (c ≠ ' '))).length
        ∧ (∀ i : Nat, pw.toList[i]? = some ' ' ↔ t.toList[i]? = some ' ')
        ∧ (∀ e ∈ characterMap, ' ' ∉ e.2.toList) :=
  ⟨by decide, rfl, rfl, by decide,
   Password_shape examplePrim exampleUser exampleSite 3 "p" exampleMaster
     exampleEntry [] exampleSeed (by decide) rfl rfl (by decide)⟩

theorem constantSaltBytes_eq : constantSaltBytes
    = [99, 111, 109, 46, 108, 121, 110, 100, 105, 114, 46, 109, 97, 115, 116, 101, 114,
       112, 97, 115, 115, 119, 111, 114, 100] := by
  decide

theorem uint32_natCast (n : Nat) : uint32 (n : Int) = n % 2 ^ 32 := by
  unfold uint32
  omega

theorem putUint32BE_eq (v : Nat) :
    putUint32BE v = [v / 2 ^ 24 % 256, v / 2 ^ 16 % 256, v / 2 ^ 8 % 256, v % 256] := by
  unfold putUint32BE
  simp only [Nat.shiftRight_eq_div_pow]

theorem bigEndian_decode (v : Nat) (hv : v < 2 ^ 32) :
    (v / 2 ^ 24 % 256) * 2 ^ 24 + (v / 2 ^ 16 % 256) * 2 ^ 16 + (v / 2 ^ 8 % 256) * 2 ^ 8
      + v % 256 = v := by
  omega

/-- C6. The salt is the 25 bytes of "com.lyndir.masterpassword", then the four big-endian bytes
of len(username) (as a uint32), then the bytes of username; for a known type Password is
determined by the result of scrypt on (masterPassword, salt, 32768, 8, 2, 64), an expression
in username and masterPassword alone, and by no other value of the scrypt primitive. -/
theorem Password_master_key (prim : Primitives) (username sitename : Bytes)
    (siteCounter : Int) (passwordType : String) (masterPassword : Bytes) (entry : Template)
    (hk : templateMap.lookup passwordType = some entry) :
    (∃ b0 b1 b2 b3, b0 < 256 ∧ b1 < 256 ∧ b2 < 256 ∧ b3 < 256
        ∧ b0 * 2 ^ 24 + b1 * 2 ^ 16 + b2 * 2 ^ 8 + b3 = username.length % 2 ^ 32
        ∧ masterSalt username
            = [99, 111, 109, 46, 108, 121, 110, 100, 105, 114, 46, 109, 97, 115, 116, 101, 114,
               112, 97, 115, 115, 119, 111, 114, 100] ++ [b0, b1, b2, b3] ++ username)
      ∧ (masterSalt username).length = 25 + 4 + username.length
      ∧ Password prim username sitename siteCounter passwordType masterPassword
          = (match prim.scryptKey masterPassword (masterSalt username) 32768 8 2 64 with
             | .error err => some ("", some err)
             | .ok masterKey =>
               (selectTemplate passwordType
                 (prim.hmacSha256 masterKey (sitePasswordInfo sitename siteCounter))).bind
                 (fun t => (renderTemplate t
                   (prim.hmacSha256 masterKey (sitePasswordInfo sitename siteCounter))).map
                     (fun pw => (pw, none))))
      ∧ (∀ prim2 : Primitives, prim2.hmacSha256 = prim.hmacSha256 →
          prim2.scryptKey masterPassword (masterSalt username) 32768 8 2 64
            = prim.scryptKey masterPassword (masterSalt username) 32768 8 2 64 →
          Password prim2 username sitename siteCounter passwordType masterPassword
            = Password prim username sitename siteCounter passwordType masterPassword) := by
  have hsalt : masterSalt username
      = [99, 111, 109, 46, 108, 121, 110, 100, 105, 114, 46, 109, 97, 115, 116, 101, 114,
         112, 97, 115, 115, 119, 111, 114, 100]
        ++ [username.length % 2 ^ 32 / 2 ^ 24 % 256, username.length % 2 ^ 32 / 2 ^ 16 % 256,
            username.length % 2 ^ 32 / 2 ^ 8 % 256, username.length % 2 ^ 32 % 256]
        ++ username := by
    unfold masterSalt
    simp only [constantSaltBytes_eq, uint32_natCast, putUint32BE_eq, List.nil_append]
  refine ⟨⟨_, _, _, _, ?_, ?_, ?_, ?_, ?_, hsalt⟩, ?_, ?_, ?_⟩
  · exact Nat.mod_lt _ (by norm_num)
  · exact Nat.mod_lt _ (by norm_num)
  · exact Nat.mod_lt _ (by norm_num)
  · exact Nat.mod_lt _ (by norm_num)
  · exact bigEndian_decode _ (Nat.mod_lt _ (by norm_num))
  · rw [hsalt]
    simp only [List.length_append, List.length_cons, List.length_nil]
  · cases hkey : prim.scryptKey masterPassword (masterSalt username) 32768 8 2 64 with
    | error err =>
      unfold Password
      simp only [hk, mpN, mpR, mpP, mpDkLen, hkey]
    | ok masterKey =>
      exact Password_known prim username sitename siteCounter passwordType masterPassword
        entry masterKey hk hkey
  · intro prim2 hh hs
    unfold Password
    simp only [hk, mpN, mpR, mpP, mpDkLen, hs, hh]

theorem Password_master_key_witness :
    templateMap.lookup "p" = some exampleEntry
      ∧ (∃ b0 b1 b2 b3, b0 < 256 ∧ b1 < 256 ∧ b2 < 256 ∧ b3 < 256
          ∧ b0 * 2 ^ 24 + b1 * 2 ^ 16 + b2 * 2 ^ 8 + b3 = exampleUser.length % 2 ^ 32
          ∧ masterSalt exampleUser
              = [99, 111, 109, 46, 108, 121, 110, 100, 105, 114, 46, 109, 97, 115, 116, 101,
                 114, 112, 97, 115, 115, 119, 111, 114, 100] ++ [b0, b1, b2, b3] ++ exampleUser)
      ∧ (masterSalt exampleUser).length = 25 + 4 + exampleUser.length
      ∧ Password examplePrim exampleUser exampleSite 3 "p" exampleMaster
          = (match examplePrim.scryptKey exampleMaster (masterSalt exampleUser) 32768 8 2 64 with
             | .error err => some ("", some err)
             | .ok masterKey =>
               (selectTemplate "p"
                 (examplePrim.hmacSha256 masterKey (sitePasswordInfo exampleSite 3))).bind
                 (fun t => (renderTemplate t
                   (examplePrim.hmacSha256 masterKey (sitePasswordInfo exampleSite 3))).map
                     (fun pw => (pw, none))))
      ∧ (∀ prim2 : Primitives, prim2.hmacSha256 = examplePrim.hmacSha256 →
          prim2.scryptKey exampleMaster (masterSalt exampleUser) 32768 8 2 64
            = examplePrim.scryptKey exampleMaster (masterSalt exampleUser) 32768 8 2 64 →
          Password prim2 exampleUser exampleSite 3 "p" exampleMaster
            = Password examplePrim exampleUser exampleSite 3 "p" exampleMaster) :=
  ⟨by decide,
   Password_master_key examplePrim exampleUser exampleSite 3 "p" exampleMaster exampleEntry
     (by decide)⟩

theorem uint32_lt (n : Int) : uint32 n < 2 ^ 32 := by
  unfold uint32
  omega

theorem uint32_cast (n : Int) : ((uint32 n : Nat) : Int) = n % 2 ^ 32 := by
  unfold uint32
  omega

/-- C7. The info buffer is the 25 bytes of "com.lyndir.masterpassword", the four big-endian bytes
of len(sitename), the bytes of sitename and the four big-endian bytes of the counter (both as
uint32), 33 + len(sitename) bytes in all; for a known type Password is determined by the HMAC of
that buffer under the master key, an expression without passwordType, and by no other value of
the HMAC primitive. -/
theorem Password_site_seed (prim : Primitives) (username sitename : Bytes)
    (siteCounter : Int) (passwordType : String) (masterPassword : Bytes) (entry : Template)
    (masterKey : Bytes)
    (hk : templateMap.lookup passwordType = some entry)
    (hkey : prim.scryptKey masterPassword (masterSalt username) mpN mpR mpP mpDkLen
      = .ok masterKey) :
    (∃ l0 l1 l2 l3 c0 c1 c2 c3, l0 < 256 ∧ l1 < 256 ∧ l2 < 256 ∧ l3 < 256
        ∧ c0 < 256 ∧ c1 < 256 ∧ c2 < 256 ∧ c3 < 256
        ∧ l0 * 2 ^ 24 + l1 * 2 ^ 16 + l2 * 2 ^ 8 + l3 = sitename.length % 2 ^ 32
        ∧ ((c0 * 2 ^ 24 + c1 * 2 ^ 16 + c2 * 2 ^ 8 + c3 : Nat) : Int) = siteCounter % 2 ^ 32
        ∧ sitePasswordInfo sitename siteCounter
            = [99, 111, 109, 46, 108, 121, 110, 100, 105, 114, 46, 109, 97, 115, 116, 101, 114,
               112, 97, 115, 115, 119, 111, 114, 100] ++ [l0, l1, l2, l3] ++ sitename
              ++ [c0, c1, c2, c3])
      ∧ (sitePasswordInfo sitename siteCounter).length = 33 + sitename.length
      ∧ Password prim username sitename siteCounter passwordType masterPassword
          = (selectTemplate passwordType
              (prim.hmacSha256 masterKey (sitePasswordInfo sitename siteCounter))).bind
              (fun t => (renderTemplate t
                (prim.hmacSha256 masterKey (sitePasswordInfo sitename siteCounter))).map
                  (fun pw => (pw, none)))
      ∧ (∀ prim2 : Primitives, prim2.scryptKey = prim.scryptKey →
          prim2.hmacSha256 masterKey (sitePasswordInfo sitename siteCounter)
            = prim.hmacSha256 masterKey (sitePasswordInfo sitename siteCounter) →
          Password prim2 username sitename siteCounter passwordType masterPassword
            = Password prim username sitename siteCounter passwordType masterPassword) := by
  have hinfo : sitePasswordInfo sitename siteCounter
      = [99, 111, 109, 46, 108, 121, 110, 100, 105, 114, 46, 109, 97, 115, 116, 101, 114,
         112, 97, 115, 115, 119, 111, 114, 100]
        ++ [sitename.length % 2 ^ 32 / 2 ^ 24 % 256, sitename.length % 2 ^ 32 / 2 ^ 16 % 256,
            sitename.length % 2 ^ 32 / 2 ^ 8 % 256, sitename.length % 2 ^ 32 % 256]
        ++ sitename
        ++ [uint32 siteCounter / 2 ^ 24 % 256, uint32 siteCounter / 2 ^ 16 % 256,
            uint32 siteCounter / 2 ^ 8 % 256, uint32 siteCounter % 256] := by
    unfold sitePasswordInfo
    simp only [constantSaltBytes_eq, uint32_natCast, putUint32BE_eq, List.nil_append]
  refine ⟨⟨_, _, _, _, _, _, _, _, ?_, ?_, ?_, ?_, ?_, ?_, ?_, ?_, ?_, ?_, hinfo⟩, ?_, ?_, ?_⟩
  · exact Nat.mod_lt _ (by norm_num)
  · exact Nat.mod_lt _ (by norm_num)
  · exact Nat.mod_lt _ (by norm_num)
  · exact Nat.mod_lt _ (by norm_num)
  · exact Nat.mod_lt _ (by norm_num)
  · exact Nat.mod_lt _ (by norm_num)
  · exact Nat.mod_lt _ (by norm_num)
  · exact Nat.mod_lt _ (by norm_num)
  · exact bigEndian_decode _ (Nat.mod_lt _ (by norm_num))
  · rw [bigEndian_decode _ (uint32_lt siteCounter)]
    exact uint32_cast siteCounter
  · rw [hinfo]
    simp only [List.length_append, List.length_cons, List.length_nil]
    omega
  · exact Password_known prim username sitename siteCounter passwordType masterPassword
      entry masterKey hk hkey
  · intro prim2 hs hh
    have hkey2 : prim2.scryptKey masterPassword (masterSalt username) mpN mpR mpP mpDkLen
        = .ok masterKey := by rw [hs]; exact hkey
    rw [Password_known prim2 username sitename siteCounter passwordType masterPassword
        entry masterKey hk hkey2,
      Password_known prim username sitename siteCounter passwordType masterPassword
        entry masterKey hk hkey, hh]

theorem Password_site_seed_witness :
    templateMap.lookup "p" = some exampleEntry
      ∧ examplePrim.scryptKey exampleMaster (masterSalt exampleUser) mpN mpR mpP mpDkLen
          = .ok []
      ∧ (∃ l0 l1 l2 l3 c0 c1 c2 c3, l0 < 256 ∧ l1 < 256 ∧ l2 < 256 ∧ l3 < 256
          ∧ c0 < 256 ∧ c1 < 256 ∧ c2 < 256 ∧ c3 < 256
          ∧ l0 * 2 ^ 24 + l1 * 2 ^ 16 + l2 * 2 ^ 8 + l3 = exampleSite.length % 2 ^ 32
          ∧ ((c0 * 2 ^ 24 + c1 * 2 ^ 16 + c2 * 2 ^ 8 + c3 : Nat) : Int) = (3 : Int) % 2 ^ 32
          ∧ sitePasswordInfo exampleSite 3
              = [99, 111, 109, 46, 108, 121, 110, 100, 105, 114, 46, 109, 97, 115, 116, 101,
                 114, 112, 97, 115, 115, 119, 111, 114, 100] ++ [l0, l1, l2, l3] ++ exampleSite
                ++ [c0, c1, c2, c3])
      ∧ (sitePasswordInfo exampleSite 3).length = 33 + exampleSite.length
      ∧ Password examplePrim exampleUser exampleSite 3 "p" exampleMaster
          = (selectTemplate "p"
              (examplePrim.hmacSha256 [] (sitePasswordInfo exampleSite 3))).bind
              (fun t => (renderTemplate t
                (examplePrim.hmacSha256 [] (sitePasswordInfo exampleSite 3))).map
                  (fun pw => (pw, none)))
      ∧ (∀ prim2 : Primitives, prim2.scryptKey = examplePrim.scryptKey →
          prim2.hmacSha256 [] (sitePasswordInfo exampleSite 3)
            = examplePrim.hmacSha256 [] (sitePasswordInfo exampleSite 3) →
          Password prim2 exampleUser exampleSite 3 "p" exampleMaster
            = Password examplePrim exampleUser exampleSite 3 "p" exampleMaster) :=
  ⟨by decide, rfl,
   Password_site_seed examplePrim exampleUser exampleSite 3 "p" exampleMaster exampleEntry []
     (by decide) rfl⟩

/-- C8. GetPasswordTypeMap has exactly eight keys, x, l, m, s, b, i, n and p, which hold
2, 21, 2, 1, 3, 1, 1 and 3 templates. -/
theorem GetPasswordTypeMap_counts :
    GetPasswordTypeMap.length = 8
      ∧ (GetPasswordTypeMap.map Prod.fst).Nodup
      ∧ GetPasswordTypeMap.map Prod.fst = ["x", "l", "m", "s", "b", "i", "n", "p"]
      ∧ ["x", "l", "m", "s", "b", "i", "n", "p"].map
          (fun k => (GetPasswordTypeMap.lookup k).map (fun e => e.maps.length))
          = [some 2, some 21, some 2, some 1, some 3, some 1, some 1, some 3] := by
  decide

theorem template_lengths (pt : String) (n : Nat)
    (h : (pt, n) ∈ [("x", 20), ("l", 14), ("m", 8), ("s", 4), ("b", 8), ("i", 4), ("n", 9)]) :
    ∃ entry, templateMap.lookup pt = some entry ∧ ∀ t ∈ entry.maps, t.length = n := by
  simp only [List.mem_cons, Prod.mk.injEq, List.mem_singleton, List.not_mem_nil, or_false] at h
  rcases h with h | h | h | h | h | h | h <;> obtain ⟨rfl, rfl⟩ := h <;>
    exact ⟨_, rfl, by decide⟩

/-- C9. When key derivation succeeds and the seed has 32 bytes, the password returned for type x
has exactly 20 characters, for l 14, for m 8, for s 4, for b 8, for i 4 and for n 9. -/
theorem Password_lengths (prim : Primitives) (username sitename : Bytes)
    (siteCounter : Int) (passwordType : String) (n : Nat) (masterPassword : Bytes)
    (masterKey seed : Bytes)
    (hpt : (passwordType, n)
      ∈ [("x", 20), ("l", 14), ("m", 8), ("s", 4), ("b", 8), ("i", 4), ("n", 9)])
    (hkey : prim.scryptKey masterPassword (masterSalt username) mpN mpR mpP mpDkLen
      = .ok masterKey)
    (hseed : prim.hmacSha256 masterKey (sitePasswordInfo sitename siteCounter) = seed)
    (hlen : seed.length = 32) :
    ∃ pw, Password prim username sitename siteCounter passwordType masterPassword
        = some (pw, none)
      ∧ pw.length = n := by
  obtain ⟨entry, hk, hall⟩ := template_lengths passwordType n hpt
  obtain ⟨b0, t, hb0, htmem, _, hsel⟩ := selectTemplate_known passwordType entry seed hk hlen
  have hmem := lookup_mem _ _ _ hk
  obtain ⟨pw, hpw, hpwlen, _⟩ := renderTemplate_spec t seed hlen
    (catalog_templates_ok _ hmem t htmem)
  refine ⟨pw, ?_, ?_⟩
  · rw [Password_known prim username sitename siteCounter passwordType masterPassword
      entry masterKey hk hkey, hseed, hsel, Option.some_bind, hpw]
    rfl
  · rw [hpwlen]
    exact hall t htmem

theorem Password_lengths_witness :
    (("x", 20) : String × Nat)
        ∈ [("x", 20), ("l", 14), ("m", 8), ("s", 4), ("b", 8), ("i", 4), ("n", 9)]
      ∧ examplePrim.scryptKey exampleMaster (masterSalt exampleUser) mpN mpR mpP mpDkLen
          = .ok []
      ∧ examplePrim.hmacSha256 [] (sitePasswordInfo exampleSite 3) = exampleSeed
      ∧ exampleSeed.length = 32
      ∧ ∃ pw, Password examplePrim exampleUser exampleSite 3 "x" exampleMaster
          = some (pw, none)
        ∧ pw.length = 20 :=
  ⟨by decide, rfl, rfl, by decide,
   Password_lengths examplePrim exampleUser exampleSite 3 "x" 20 exampleMaster [] exampleSeed
     (by decide) rfl rfl (by decide)⟩

/-- C10. With the site seed of username "user", sitename "example.com", counter 3 and master
password "password" (first byte 235, and 235 mod 3 = 1), Password for type p renders the second
template and returns the 18-character "kiz quhwumami soke", not a 20-character sentence. -/
theorem Password_phrase_18 :
    exampleSeed.length = 32 ∧ IsBytes exampleSeed
      ∧ selectTemplate "p" exampleSeed = some "cvc cvccvcvcv cvcv"
      ∧ Password examplePrim exampleUser exampleSite 3 "p" exampleMaster
          = some ("kiz quhwumami soke", none)
      ∧ "kiz quhwumami soke".length = 18 := by
  decide

theorem putUint32BE_inj (v w : Nat) (hv : v < 2 ^ 32) (hw : w < 2 ^ 32)
    (h : putUint32BE v = putUint32BE w) : v = w := by
  rw [putUint32BE_eq, putUint32BE_eq] at h
  simp only [List.cons.injEq, and_true] at h
  obtain ⟨h0, h1, h2, h3⟩ := h
  rw [← bigEndian_decode v hv, ← bigEndian_decode w hw, h0, h1, h2, h3]

theorem putUint32BE_length (v : Nat) : (putUint32BE v).length = 4 := rfl

theorem masterSalt_inj (u1 u2 : Bytes) (h : masterSalt u1 = masterSalt u2) : u1 = u2 := by
  unfold masterSalt at h
  simp only [List.nil_append] at h
  exact (List.append_inj h (by simp [putUint32BE_length])).2

theorem uint32_inj (c1 c2 : Int) (h1 : 0 ≤ c1 ∧ c1 < 2 ^ 32) (h2 : 0 ≤ c2 ∧ c2 < 2 ^ 32)
    (h : uint32 c1 = uint32 c2) : c1 = c2 := by
  unfold uint32 at h
  omega

theorem sitePasswordInfo_inj (s1 s2 : Bytes) (c1 c2 : Int)
    (h : sitePasswordInfo s1 c1 = sitePasswordInfo s2 c2) :
    s1 = s2 ∧ uint32 c1 = uint32 c2 := by
  unfold sitePasswordInfo at h
  simp only [List.nil_append] at h
  have h4 : (putUint32BE (uint32 c1)).length = (putUint32BE (uint32 c2)).length := by
    simp [putUint32BE_length]
  have hpre := List.append_inj_left' h h4
  have hsuf := List.append_inj_right' h h4
  have hs := (List.append_inj hpre (by simp [putUint32BE_length])).2
  exact ⟨hs, putUint32BE_inj _ _ (uint32_lt c1) (uint32_lt c2) hsuf⟩

/-- C18. Two different usernames give different master salts, and for counters in [0, 2^32)
two different (sitename, counter) pairs give different info buffers; this holds for names of
every length, in particular for those shorter than 2^32 bytes. -/
theorem encodings_injective (u1 u2 s1 s2 : Bytes) (c1 c2 : Int)
    (hc1 : 0 ≤ c1 ∧ c1 < 2 ^ 32) (hc2 : 0 ≤ c2 ∧ c2 < 2 ^ 32) :
    (u1 ≠ u2 → masterSalt u1 ≠ masterSalt u2)
      ∧ ((s1, c1) ≠ (s2, c2) → sitePasswordInfo s1 c1 ≠ sitePasswordInfo s2 c2) := by
  constructor
  · intro hne h
    exact hne (masterSalt_inj u1 u2 h)
  · intro hne h
    obtain ⟨hs, hc⟩ := sitePasswordInfo_inj s1 s2 c1 c2 h
    apply hne
    rw [hs, uint32_inj c1 c2 hc1 hc2 hc]

theorem encodings_injective_witness :
    ((0 : Int) ≤ 1 ∧ (1 : Int) < 2 ^ 32) ∧ ((0 : Int) ≤ 2 ∧ (2 : Int) < 2 ^ 32)
      ∧ (exampleUser ≠ exampleSite → masterSalt exampleUser ≠ masterSalt exampleSite)
      ∧ ((exampleSite, (1 : Int)) ≠ (exampleMaster, (2 : Int)) →
          sitePasswordInfo exampleSite 1 ≠ sitePasswordInfo exampleMaster 2) :=
  ⟨by decide, by decide,
   encodings_injective exampleUser exampleSite exampleSite exampleMaster 1 2
     (by decide) (by decide)⟩

theorem renderedAt_mem_class (t : String) (seed : Bytes) (ht : TemplateOK t) (i : Nat) (hi : i < t.length) :
    ∃ tc, t.toList[i]? = some tc
      ∧ (tc = ' ' → renderedAt t seed i = ' ')
      ∧ (tc ≠ ' ' → renderedAt t seed i ∈ (characterMapAt tc).toList) := by
  have hit : i < t.toList.length := by simpa using hi
  have h2 : t.toList[i]? = some t.toList[i] := List.getElem?_eq_getElem hit
  refine ⟨t.toList[i], h2, ?_, ?_⟩
  · intro hsp
    unfold renderedAt renderedChar
    rw [h2, Option.getD_some, if_pos hsp]
  · intro hsp
    have hne := ht.2 _ (List.getElem_mem hit) hsp
    have hpos : 0 < (characterMapAt t.toList[i]).length := Nat.pos_of_ne_zero hne
    have hidx : ((seed[i + 1]?).getD 0 &&& 0xFF) % (characterMapAt t.toList[i]).length
        < (characterMapAt t.toList[i]).toList.length := by
      simpa using Nat.mod_lt _ hpos
    unfold renderedAt renderedChar
    rw [h2, Option.getD_some, if_neg hsp, List.getElem?_eq_getElem hidx, Option.getD_some]
    exact List.getElem_mem hidx

/-- Every character of a rendered password satisfies `P` when the space does, if the template
has one, and every character of the class of each template symbol does. -/
theorem rendered_all (P : Char → Prop) (t : String) (seed : Bytes) (hlen : seed.length = 32)
    (ht : TemplateOK t)
    (hP : ∀ tc ∈ t.toList,
      (tc = ' ' → P ' ') ∧ (tc ≠ ' ' → ∀ c ∈ (characterMapAt tc).toList, P c))
    (pw : String) (hpw : renderTemplate t seed = some pw) : ∀ c ∈ pw.toList, P c := by
  obtain ⟨pw2, hpw2, hl, hget⟩ := renderTemplate_spec t seed hlen ht
  have hpweq : pw = pw2 := by
    rw [hpw] at hpw2
    exact Option.some.inj hpw2
  subst hpweq
  have hlen2 : pw.toList.length = t.toList.length := by simpa using hl
  intro c hc
  obtain ⟨i, hi, hci⟩ := List.getElem_of_mem hc
  have hit : i < t.length := by
    have : i < t.toList.length := by omega
    simpa using this
  have hsome : pw.toList[i]? = some c := by
    rw [List.getElem?_eq_getElem hi, hci]
  rw [hget i hit] at hsome
  have hr : renderedAt t seed i = c := Option.some.inj hsome
  obtain ⟨tc, htc, hspace, hclass⟩ := renderedAt_mem_class t seed ht i hit
  have htcmem : tc ∈ t.toList := List.getElem?_mem htc
  by_cases hsp : tc = ' '
  · rw [← hr, hspace hsp]
    exact (hP tc htcmem).1 hsp
  · rw [← hr]
    exact (hP tc htcmem).2 hsp _ (hclass hsp)

/-- A rendered password holds, for each non-space symbol of the template, a character of the
class of that symbol. -/
theorem rendered_has_class (t : String) (seed : Bytes) (hlen : seed.length = 32)
    (ht : TemplateOK t) (tc : Char) (htc : tc ∈ t.toList) (hsp : tc ≠ ' ')
    (pw : String) (hpw : renderTemplate t seed = some pw) :
    ∃ c ∈ pw.toList, c ∈ (characterMapAt tc).toList := by
  obtain ⟨pw2, hpw2, _, hget⟩ := renderTemplate_spec t seed hlen ht
  have hpweq : pw = pw2 := by
    rw [hpw] at hpw2
    exact Option.some.inj hpw2
  subst hpweq
  obtain ⟨i, hi, hci⟩ := List.getElem_of_mem htc
  have hit : i < t.length := by simpa using hi
  obtain ⟨tc2, htc2, _, hclass⟩ := renderedAt_mem_class t seed ht i hit
  have heq : tc2 = tc := by
    rw [List.getElem?_eq_getElem hi, hci] at htc2
    exact (Option.some.inj htc2).symm
  subst heq
  exact ⟨renderedAt t seed i, List.getElem?_mem (hget i hit), hclass hsp⟩

/-- For a known type, a successful key derivation and a 32-byte seed, Password returns the
rendering of a template of the catalog entry. -/
theorem Password_returns_rendering (prim : Primitives) (username sitename : Bytes)
    (siteCounter : Int) (passwordType : String) (masterPassword : Bytes)
    (entry : Template) (masterKey seed : Bytes)
    (hk : templateMap.lookup passwordType = some entry)
    (hkey : prim.scryptKey masterPassword (masterSalt username) mpN mpR mpP mpDkLen
      = .ok masterKey)
    (hseed : prim.hmacSha256 masterKey (sitePasswordInfo sitename siteCounter) = seed)
    (hlen : seed.length = 32) :
    ∃ t pw, t ∈ entry.maps ∧ TemplateOK t ∧ selectTemplate passwordType seed = some t
      ∧ renderTemplate t seed = some pw ∧ pw.length = t.length
      ∧ Password prim username sitename siteCounter passwordType masterPassword
          = some (pw, none) := by
  obtain ⟨b0, t, hb0, htmem, _, hsel⟩ := selectTemplate_known passwordType entry seed hk hlen
  have hmem := lookup_mem _ _ _ hk
  have hok := catalog_templates_ok _ hmem t htmem
  obtain ⟨pw, hpw, hpwlen, _⟩ := renderTemplate_spec t seed hlen hok
  refine ⟨t, pw, htmem, hok, hsel, hpw, hpwlen, ?_⟩
  rw [Password_known prim username sitename siteCounter passwordType masterPassword
    entry masterKey hk hkey, hseed, hsel, Option.some_bind, hpw]
  rfl

theorem digit_templates : ∀ t ∈ ["nnnn"], ∀ tc ∈ t.toList,
    (tc = ' ' → (' ' ∈ "0123456789".toList ∧ ' '.isDigit = true))
      ∧ (tc ≠ ' ' → ∀ c ∈ (characterMapAt tc).toList,
          c ∈ "0123456789".toList ∧ c.isDigit = true) := by
  decide

/-- C13. When key derivation succeeds and the seed has 32 bytes, the password returned for
type i has exactly four characters and each is one of the decimal digits 0 to 9. -/
theorem Password_pin_digits (prim : Primitives) (username sitename : Bytes)
    (siteCounter : Int) (masterPassword : Bytes) (masterKey seed : Bytes)
    (hkey : prim.scryptKey masterPassword (masterSalt username) mpN mpR mpP mpDkLen
      = .ok masterKey)
    (hseed : prim.hmacSha256 masterKey (sitePasswordInfo sitename siteCounter) = seed)
    (hlen : seed.length = 32) :
    ∃ pw, Password prim username sitename siteCounter "i" masterPassword = some (pw, none)
      ∧ pw.length = 4
      ∧ ∀ c ∈ pw.toList, c ∈ "0123456789".toList ∧ c.isDigit = true := by
  have hk : templateMap.lookup "i" = some ⟨["nnnn"], "4 numbers"⟩ := by decide
  obtain ⟨t, pw, htmem, hok, _, hpw, hpwlen, hP⟩ :=
    Password_returns_rendering prim username sitename siteCounter "i" masterPassword _
      masterKey seed hk hkey hseed hlen
  refine ⟨pw, hP, ?_, ?_⟩
  · have ht : t = "nnnn" := by simpa using htmem
    rw [hpwlen, ht]
    rfl
  · exact rendered_all (fun c => c ∈ "0123456789".toList ∧ c.isDigit = true) t seed hlen hok
      (digit_templates t htmem) pw hpw

theorem Password_pin_digits_witness :
    examplePrim.scryptKey exampleMaster (masterSalt exampleUser) mpN mpR mpP mpDkLen = .ok []
      ∧ examplePrim.hmacSha256 [] (sitePasswordInfo exampleSite 3) = exampleSeed
      ∧ exampleSeed.length = 32
      ∧ ∃ pw, Password examplePrim exampleUser exampleSite 3 "i" exampleMaster
          = some (pw, none)
        ∧ pw.length = 4
        ∧ ∀ c ∈ pw.toList, c ∈ "0123456789".toList ∧ c.isDigit = true :=
  ⟨rfl, rfl, by decide,
   Password_pin_digits examplePrim exampleUser exampleSite 3 exampleMaster [] exampleSeed
     rfl rfl (by decide)⟩

theorem symbol_class_eq : characterMapAt 'o' = "@&%?,=[]_:-+*$#!'^~;()/." := by
  decide

theorem no_symbol_templates :
    ∀ t ∈ ["Cvcn", "aaanaaan", "aannaaan", "aaannaaa"], ∀ tc ∈ t.toList,
      (tc = ' ' → ((' '.isAlpha = true ∨ ' '.isDigit = true)
          ∧ ' ' ∉ (characterMapAt 'o').toList))
        ∧ (tc ≠ ' ' → ∀ c ∈ (characterMapAt tc).toList,
            (c.isAlpha = true ∨ c.isDigit = true) ∧ c ∉ (characterMapAt 'o').toList) := by
  decide

/-- C14. When key derivation succeeds and the seed has 32 bytes, every character of the password
returned for type s or b is an ASCII letter or a decimal digit, and none is a character of the
symbol class o. -/
theorem Password_no_symbols (prim : Primitives) (username sitename : Bytes)
    (siteCounter : Int) (passwordType : String) (masterPassword : Bytes)
    (masterKey seed : Bytes)
    (hpt : passwordType ∈ ["s", "b"])
    (hkey : prim.scryptKey masterPassword (masterSalt username) mpN mpR mpP mpDkLen
      = .ok masterKey)
    (hseed : prim.hmacSha256 masterKey (sitePasswordInfo sitename siteCounter) = seed)
    (hlen : seed.length = 32) :
    characterMapAt 'o' = "@&%?,=[]_:-+*$#!'^~;()/."
      ∧ ∃ pw, Password prim username sitename siteCounter passwordType masterPassword
          = some (pw, none)
        ∧ ∀ c ∈ pw.toList,
            (c.isAlpha = true ∨ c.isDigit = true) ∧ c ∉ (characterMapAt 'o').toList := by
  have hk : ∃ entry, templateMap.lookup passwordType = some entry
      ∧ ∀ t ∈ entry.maps, t ∈ ["Cvcn", "aaanaaan", "aannaaan", "aaannaaa"] := by
    simp only [List.mem_cons, List.mem_singleton, List.not_mem_nil, or_false] at hpt
    rcases hpt with h | h <;> subst h <;> exact ⟨_, rfl, by decide⟩
  obtain ⟨entry, hk, hin⟩ := hk
  obtain ⟨t, pw, htmem, hok, _, hpw, _, hP⟩ :=
    Password_returns_rendering prim username sitename siteCounter passwordType masterPassword
      entry masterKey seed hk hkey hseed hlen
  refine ⟨symbol_class_eq, pw, hP, ?_⟩
  exact rendered_all
    (fun c => (c.isAlpha = true ∨ c.isDigit = true) ∧ c ∉ (characterMapAt 'o').toList)
    t seed hlen hok (no_symbol_templates t (hin t htmem)) pw hpw

theorem Password_no_symbols_witness :
    "b" ∈ ["s", "b"]
      ∧ examplePrim.scryptKey exampleMaster (masterSalt exampleUser) mpN mpR mpP mpDkLen = .ok []
      ∧ examplePrim.hmacSha256 [] (sitePasswordInfo exampleSite 3) = exampleSeed
      ∧ exampleSeed.length = 32
      ∧ characterMapAt 'o' = "@&%?,=[]_:-+*$#!'^~;()/."
      ∧ ∃ pw, Password examplePrim exampleUser exampleSite 3 "b" exampleMaster
          = some (pw, none)
        ∧ ∀ c ∈ pw.toList,
            (c.isAlpha = true ∨ c.isDigit = true) ∧ c ∉ (characterMapAt 'o').toList :=
  ⟨by decide, rfl, rfl, by decide,
   Password_no_symbols examplePrim exampleUser exampleSite 3 "b" exampleMaster [] exampleSeed
     (by decide) rfl rfl (by decide)⟩

theorem symbol_templates :
    ∀ e ∈ templateMap, e.1 ∈ ["x", "l", "m"] → ∀ t ∈ e.2.maps,
      'o' ∈ t.toList ∧ 'n' ∈ t.toList := by
  decide

theorem digit_class : ∀ c ∈ (characterMapAt 'n').toList, c.isDigit = true := by
  decide

/-- C15. When key derivation succeeds and the seed has 32 bytes, the password returned for type
x, l or m holds at least one character of the symbol class o and at least one decimal digit. -/
theorem Password_has_symbol_and_digit (prim : Primitives) (username sitename : Bytes)
    (siteCounter : Int) (passwordType : String) (masterPassword : Bytes)
    (masterKey seed : Bytes)
    (hpt : passwordType ∈ ["x", "l", "m"])
    (hkey : prim.scryptKey masterPassword (masterSalt username) mpN mpR mpP mpDkLen
      = .ok masterKey)
    (hseed : prim.hmacSha256 masterKey (sitePasswordInfo sitename siteCounter) = seed)
    (hlen : seed.length = 32) :
    characterMapAt 'o' = "@&%?,=[]_:-+*$#!'^~;()/."
      ∧ ∃ pw, Password prim username sitename siteCounter passwordType masterPassword
          = some (pw, none)
        ∧ (∃ c ∈ pw.toList, c ∈ (characterMapAt 'o').toList)
        ∧ (∃ d ∈ pw.toList, d.isDigit = true) := by
  have hk : ∃ entry, templateMap.lookup passwordType = some entry := by
    simp only [List.mem_cons, List.mem_singleton, List.not_mem_nil, or_false] at hpt
    rcases hpt with h | h | h <;> subst h <;> exact ⟨_, rfl⟩
  obtain ⟨entry, hk⟩ := hk
  obtain ⟨t, pw, htmem, hok, _, hpw, _, hP⟩ :=
    Password_returns_rendering prim username sitename siteCounter passwordType masterPassword
      entry masterKey seed hk hkey hseed hlen
  obtain ⟨ho, hn⟩ := symbol_templates _ (lookup_mem _ _ _ hk) hpt t htmem
  obtain ⟨c, hc, hcls⟩ := rendered_has_class t seed hlen hok 'o' ho (by decide) pw hpw
  obtain ⟨d, hd, hdcls⟩ := rendered_has_class t seed hlen hok 'n' hn (by decide) pw hpw
  exact ⟨symbol_class_eq, pw, hP, ⟨c, hc, hcls⟩, ⟨d, hd, digit_class d hdcls⟩⟩

theorem Password_has_symbol_and_digit_witness :
    "m" ∈ ["x", "l", "m"]
      ∧ examplePrim.scryptKey exampleMaster (masterSalt exampleUser) mpN mpR mpP mpDkLen = .ok []
      ∧ examplePrim.hmacSha256 [] (sitePasswordInfo exampleSite 3) = exampleSeed
      ∧ exampleSeed.length = 32
      ∧ characterMapAt 'o' = "@&%?,=[]_:-+*$#!'^~;()/."
      ∧ ∃ pw, Password examplePrim exampleUser exampleSite 3 "m" exampleMaster
          = some (pw, none)
        ∧ (∃ c ∈ pw.toList, c ∈ (characterMapAt 'o').toList)
        ∧ (∃ d ∈ pw.toList, d.isDigit = true) :=
  ⟨by decide, rfl, rfl, by decide,
   Password_has_symbol_and_digit examplePrim exampleUser exampleSite 3 "m" exampleMaster []
     exampleSeed (by decide) rfl rfl (by decide)⟩

theorem catalog_wellformed :
    ∀ e ∈ templateMap, e.2.maps.length ≠ 0
      ∧ ∀ t ∈ e.2.maps, t.length ≤ 31
        ∧ ∀ ch ∈ t.toList, ch ≠ ' ' →
            ∃ cls, characterMap.lookup ch = some cls ∧ cls.length ≠ 0 := by
  intro e he
  refine ⟨catalog_nonempty e he, ?_⟩
  intro t ht
  obtain ⟨hle, hcls⟩ := catalog_templates_ok e he t ht
  refine ⟨hle, ?_⟩
  intro ch hch hsp
  exact ⟨characterMapAt ch, characterMapAt_of_nonempty ch (hcls ch hch hsp), hcls ch hch hsp⟩

/-- C16. Every catalog entry has a template, every template has at most 31 symbols and each
non-space symbol is a key of characterMap with a non-empty class; hence with 32-byte seeds
selection and rendering succeed for every known type, and Password never panics (no index out
of range, no division by zero) whatever the caller passes. -/
theorem Password_total (prim : Primitives) (username sitename : Bytes)
    (siteCounter : Int) (passwordType : String) (masterPassword : Bytes)
    (hH : ∀ k m, (prim.hmacSha256 k m).length = 32) :
    (∀ e ∈ templateMap, e.2.maps.length ≠ 0
        ∧ ∀ t ∈ e.2.maps, t.length ≤ 31
          ∧ ∀ ch ∈ t.toList, ch ≠ ' ' →
              ∃ cls, characterMap.lookup ch = some cls ∧ cls.length ≠ 0)
      ∧ (∀ entry, templateMap.lookup passwordType = some entry →
          ∀ seed : Bytes, seed.length = 32 →
            ∃ t pw, t ∈ entry.maps ∧ selectTemplate passwordType seed = some t
              ∧ renderTemplate t seed = some pw)
      ∧ Password prim username sitename siteCounter passwordType masterPassword ≠ none := by
  refine ⟨catalog_wellformed, ?_, ?_⟩
  · intro entry hk seed hlen
    obtain ⟨b0, t, _, htmem, _, hsel⟩ := selectTemplate_known passwordType entry seed hk hlen
    obtain ⟨pw, hpw, _, _⟩ := renderTemplate_spec t seed hlen
      (catalog_templates_ok _ (lookup_mem _ _ _ hk) t htmem)
    exact ⟨t, pw, htmem, hsel, hpw⟩
  · obtain ⟨pw, err, hP, _⟩ := Password_all_or_nothing prim username sitename siteCounter
      passwordType masterPassword hH
    rw [hP]
    exact Option.some_ne_none _

theorem Password_total_witness :
    (∀ k m, (examplePrim.hmacSha256 k m).length = 32)
      ∧ (∀ e ∈ templateMap, e.2.maps.length ≠ 0
          ∧ ∀ t ∈ e.2.maps, t.length ≤ 31
            ∧ ∀ ch ∈ t.toList, ch ≠ ' ' →
                ∃ cls, characterMap.lookup ch = some cls ∧ cls.length ≠ 0)
      ∧ (∀ entry, templateMap.lookup "p" = some entry →
          ∀ seed : Bytes, seed.length = 32 →
            ∃ t pw, t ∈ entry.maps ∧ selectTemplate "p" seed = some t
              ∧ renderTemplate t seed = some pw)
      ∧ Password examplePrim exampleUser exampleSite 3 "p" exampleMaster ≠ none :=
  ⟨fun _ _ => rfl,
   Password_total examplePrim exampleUser exampleSite 3 "p" exampleMaster (fun _ _ => rfl)⟩

theorem classes_nodup : ∀ e ∈ characterMap, e.2.toList.Nodup := by
  decide

/-- C17. The nine classes V, C, A, v, c, a, n, o, x of characterMap hold no character twice, so
two seed bytes yield the same character of a class only if they are congruent modulo the length
of the class. -/
theorem characterMap_dedup :
    characterMap.map Prod.fst = ['V', 'C', 'A', 'v', 'c', 'a', 'n', 'o', 'x']
      ∧ (∀ e ∈ characterMap, e.2.toList.Nodup)
      ∧ (∀ e ∈ characterMap, ∀ b1 b2 : Nat,
          e.2.toList[b1 % e.2.length]? = e.2.toList[b2 % e.2.length]? →
            b1 % e.2.length = b2 % e.2.length) := by
  refine ⟨by decide, classes_nodup, ?_⟩
  intro e he b1 b2 h
  have hnd := classes_nodup e he
  have hpos : 0 < e.2.toList.length := by
    have : ∀ e ∈ characterMap, 0 < e.2.toList.length := by decide
    exact this e he
  have h1 : b1 % e.2.length < e.2.toList.length := by
    simpa using Nat.mod_lt b1 (by simpa using hpos)
  have h2 : b2 % e.2.length < e.2.toList.length := by
    simpa using Nat.mod_lt b2 (by simpa using hpos)
  rw [List.getElem?_eq_getElem h1, List.getElem?_eq_getElem h2] at h
  exact (List.Nodup.getElem_inj_iff hnd).mp (Option.some.inj h)

theorem selectTemplate_of_byte (passwordType : String) (entry : Template) (seed : Bytes)
    (b : Nat) (T : String)
    (hk : templateMap.lookup passwordType = some entry) (hlen : seed.length = 32)
    (hb : IsBytes seed) (h0 : seed[0]? = some b)
    (hT : entry.maps[b % entry.maps.length]? = some T) :
    selectTemplate passwordType seed = some T ∧ T ∈ entry.maps := by
  obtain ⟨b0, t, hb0, htmem, hidx, hsel⟩ := selectTemplate_known passwordType entry seed hk hlen
  have hbb : b0 = b := by
    rw [hb0] at h0
    exact Option.some.inj h0
  subst hbb
  rw [and_ff_of_lt b0 (hb b0 (List.getElem?_mem hb0)), hT] at hidx
  have htT : T = t := Option.some.inj hidx
  subst htT
  exact ⟨hsel, htmem⟩

theorem renderTemplate_congr (T : String) (seed1 seed2 : Bytes)
    (hlen1 : seed1.length = 32) (hlen2 : seed2.length = 32) (hok : TemplateOK T)
    (hagree : ∀ i, i < T.length → T.toList[i]? ≠ some ' ' → seed1[i + 1]? = seed2[i + 1]?) :
    renderTemplate T seed1 = renderTemplate T seed2 := by
  rw [renderTemplate_eq T seed1 hlen1 hok, renderTemplate_eq T seed2 hlen2 hok]
  congr 2
  apply List.map_congr_left
  intro i hi
  have hiT : i < T.length := List.mem_range.mp hi
  have hit : i < T.toList.length := by simpa using hiT
  unfold renderedAt
  by_cases hsp : T.toList[i]? = some ' '
  · rw [hsp, Option.getD_some]
    unfold renderedChar
    rw [if_pos rfl, if_pos rfl]
  · rw [hagree i hiT hsp]

/-- C20. For a known type, two 32-byte seeds whose bytes 0 are congruent modulo the number of
templates select the same template T; if they also agree on every byte i+1 for which position i
of T is not a space, the rendering and the result of Password are the same, whatever the other
seed bytes are. -/
theorem Password_consumed_bytes (prim1 prim2 : Primitives)
    (username1 sitename1 : Bytes) (siteCounter1 : Int) (masterPassword1 : Bytes)
    (username2 sitename2 : Bytes) (siteCounter2 : Int) (masterPassword2 : Bytes)
    (passwordType : String) (entry : Template) (masterKey1 masterKey2 seed1 seed2 : Bytes)
    (b1 b2 : Nat) (T : String)
    (hk : templateMap.lookup passwordType = some entry)
    (hkey1 : prim1.scryptKey masterPassword1 (masterSalt username1) mpN mpR mpP mpDkLen
      = .ok masterKey1)
    (hkey2 : prim2.scryptKey masterPassword2 (masterSalt username2) mpN mpR mpP mpDkLen
      = .ok masterKey2)
    (hseed1 : prim1.hmacSha256 masterKey1 (sitePasswordInfo sitename1 siteCounter1) = seed1)
    (hseed2 : prim2.hmacSha256 masterKey2 (sitePasswordInfo sitename2 siteCounter2) = seed2)
    (hlen1 : seed1.length = 32) (hlen2 : seed2.length = 32)
    (hb1 : IsBytes seed1) (hb2 : IsBytes seed2)
    (h01 : seed1[0]? = some b1) (h02 : seed2[0]? = some b2)
    (hsel : b1 % entry.maps.length = b2 % entry.maps.length)
    (hT : entry.maps[b1 % entry.maps.length]? = some T)
    (hagree : ∀ i, i < T.length → T.toList[i]? ≠ some ' ' → seed1[i + 1]? = seed2[i + 1]?) :
    selectTemplate passwordType seed1 = some T
      ∧ selectTemplate passwordType seed2 = some T
      ∧ renderTemplate T seed1 = renderTemplate T seed2
      ∧ Password prim1 username1 sitename1 siteCounter1 passwordType masterPassword1
          = Password prim2 username2 sitename2 siteCounter2 passwordType masterPassword2 := by
  obtain ⟨hsel1, hTmem⟩ := selectTemplate_of_byte passwordType entry seed1 b1 T hk hlen1 hb1 h01 hT
  obtain ⟨hsel2, _⟩ := selectTemplate_of_byte passwordType entry seed2 b2 T hk hlen2 hb2 h02
    (hsel ▸ hT)
  have hok := catalog_templates_ok _ (lookup_mem _ _ _ hk) T hTmem
  have hren := renderTemplate_congr T seed1 seed2 hlen1 hlen2 hok hagree
  refine ⟨hsel1, hsel2, hren, ?_⟩
  rw [Password_known prim1 username1 sitename1 siteCounter1 passwordType masterPassword1
      entry masterKey1 hk hkey1,
    Password_known prim2 username2 sitename2 siteCounter2 passwordType masterPassword2
      entry masterKey2 hk hkey2, hseed1, hseed2, hsel1, hsel2, Option.some_bind,
    Option.some_bind, hren]

theorem Password_consumed_bytes_witness :
    templateMap.lookup "p" = some exampleEntry
      ∧ examplePrim.scryptKey exampleMaster (masterSalt exampleUser) mpN mpR mpP mpDkLen = .ok []
      ∧ (stubPrim [] exampleSeed2).scryptKey exampleUser (masterSalt exampleMaster)
          mpN mpR mpP mpDkLen = .ok []
      ∧ examplePrim.hmacSha256 [] (sitePasswordInfo exampleSite 3) = exampleSeed
      ∧ (stubPrim [] exampleSeed2).hmacSha256 [] (sitePasswordInfo exampleUser 7) = exampleSeed2
      ∧ exampleSeed.length = 32 ∧ exampleSeed2.length = 32
      ∧ IsBytes exampleSeed ∧ IsBytes exampleSeed2
      ∧ exampleSeed[0]? = some 235 ∧ exampleSeed2[0]? = some 238
      ∧ 235 % exampleEntry.maps.length = 238 % exampleEntry.maps.length
      ∧ exampleEntry.maps[235 % exampleEntry.maps.length]? = some "cvc cvccvcvcv cvcv"
      ∧ (∀ i, i < "cvc cvccvcvcv cvcv".length → "cvc cvccvcvcv cvcv".toList[i]? ≠ some ' ' →
          exampleSeed[i + 1]? = exampleSeed2[i + 1]?)
      ∧ selectTemplate "p" exampleSeed = some "cvc cvccvcvcv cvcv"
      ∧ selectTemplate "p" exampleSeed2 = some "cvc cvccvcvcv cvcv"
      ∧ renderTemplate "cvc cvccvcvcv cvcv" exampleSeed
          = renderTemplate "cvc cvccvcvcv cvcv" exampleSeed2
      ∧ Password examplePrim exampleUser exampleSite 3 "p" exampleMaster
          = Password (stubPrim [] exampleSeed2) exampleMaster exampleUser 7 "p" exampleUser :=
  ⟨by decide, rfl, rfl, rfl, rfl, by decide, by decide, by decide, by decide, by decide,
   by decide, by decide, by decide, by decide,
   Password_consumed_bytes examplePrim (stubPrim [] exampleSeed2)
     exampleUser exampleSite 3 exampleMaster exampleMaster exampleUser 7 exampleUser
     "p" exampleEntry [] [] exampleSeed exampleSeed2 235 238 "cvc cvccvcvcv cvcv"
     (by decide) rfl rfl rfl rfl (by decide) (by decide) (by decide) (by decide) (by decide)
     (by decide) (by decide) (by decide) (by decide)⟩

/-- On the seeds recorded in `referenceVectors`, selection and rendering produce the expected
passwords of the reference vectors, whatever the master key is. -/
theorem referenceVectors_render :
    ∀ v ∈ referenceVectors,
      Password (stubPrim [] v.2.2.2.2.2.2) (bytesOfAscii v.1) (bytesOfAscii v.2.1) v.2.2.1
          v.2.2.2.1 (bytesOfAscii v.2.2.2.2.1)
        = some (v.2.2.2.2.2.1, none) := by
  decide

theorem sitePasswordInfo_layout (sitename : Bytes) (c : Int) :
    sitePasswordInfo sitename c
      = constantSaltBytes ++ putUint32BE (uint32 (sitename.length : Int)) ++ sitename
        ++ [uint32 c / 2 ^ 24 % 256, uint32 c / 2 ^ 16 % 256, uint32 c / 2 ^ 8 % 256,
            uint32 c % 256] := by
  unfold sitePasswordInfo
  simp only [putUint32BE_eq, List.nil_append]

theorem sitePasswordInfo_eq_iff (sitename : Bytes) (d1 d2 : Int) :
    sitePasswordInfo sitename d1 = sitePasswordInfo sitename d2
      ↔ d1 % 2 ^ 32 = d2 % 2 ^ 32 := by
  constructor
  · intro h
    have hu := (sitePasswordInfo_inj sitename sitename d1 d2 h).2
    rw [← uint32_cast d1, ← uint32_cast d2, hu]
  · intro h
    have hu : uint32 d1 = uint32 d2 := by
      unfold uint32
      rw [h]
    unfold sitePasswordInfo
    rw [hu]

/-- With 32-byte HMAC digests, `Password` returns for every counter, and its error is non-nil
exactly for an unknown type or a scrypt error. -/
theorem Password_returns (prim : Primitives) (username sitename : Bytes)
    (siteCounter : Int) (passwordType : String) (masterPassword : Bytes)
    (hH : ∀ k m, (prim.hmacSha256 k m).length = 32) :
    ∃ pw err, Password prim username sitename siteCounter passwordType masterPassword
        = some (pw, err)
      ∧ (err ≠ none ↔ (passwordType ∉ GetPasswordTypeMap.map Prod.fst
            ∨ ∃ e, prim.scryptKey masterPassword (masterSalt username) mpN mpR mpP mpDkLen
                = .error e)) := by
  cases hk : templateMap.lookup passwordType with
  | none =>
    refine ⟨"", some ("unknown password type: " ++ passwordType), ?_, ?_⟩
    · unfold Password
      rw [hk]
    · have hnk := (lookup_none_iff_not_key passwordType).mp hk
      simp [hnk]
  | some entry =>
    have hin := mem_keys_of_lookup passwordType entry hk
    cases hkey : prim.scryptKey masterPassword (masterSalt username) mpN mpR mpP mpDkLen with
    | error e =>
      refine ⟨"", some e, ?_, ?_⟩
      · unfold Password
        simp only [hk, hkey]
      · simp
    | ok masterKey =>
      obtain ⟨t, pw, _, _, _, _, _, hP⟩ :=
        Password_returns_rendering prim username sitename siteCounter passwordType
          masterPassword entry masterKey _ hk hkey rfl
          (hH masterKey (sitePasswordInfo sitename siteCounter))
      exact ⟨pw, none, hP, by simp [hin]⟩

/-- C19. The counter is a signed integer encoded as uint32(siteCounter): the last four bytes of
the info buffer are the big-endian bytes of siteCounter mod 2^32, two counters give the same
info buffer exactly when they are congruent modulo 2^32, congruent counters give the same result
of Password, and no counter is rejected: with 32-byte HMAC digests Password returns, and its
error is non-nil only for an unknown type or a scrypt error, whatever the counter. -/
theorem Password_counter_mod (prim : Primitives) (username sitename : Bytes)
    (c1 c2 : Int) (passwordType : String) (masterPassword : Bytes)
    (h : c1 % 2 ^ 32 = c2 % 2 ^ 32) :
    (∃ b0 b1 b2 b3, b0 < 256 ∧ b1 < 256 ∧ b2 < 256 ∧ b3 < 256
        ∧ ((b0 * 2 ^ 24 + b1 * 2 ^ 16 + b2 * 2 ^ 8 + b3 : Nat) : Int) = c1 % 2 ^ 32
        ∧ sitePasswordInfo sitename c1
            = constantSaltBytes ++ putUint32BE (uint32 (sitename.length : Int)) ++ sitename
              ++ [b0, b1, b2, b3])
      ∧ (∀ d1 d2 : Int, sitePasswordInfo sitename d1 = sitePasswordInfo sitename d2
            ↔ d1 % 2 ^ 32 = d2 % 2 ^ 32)
      ∧ sitePasswordInfo sitename c1 = sitePasswordInfo sitename c2
      ∧ Password prim username sitename c1 passwordType masterPassword
          = Password prim username sitename c2 passwordType masterPassword
      ∧ ((∀ k m, (prim.hmacSha256 k m).length = 32) →
          ∃ pw err, Password prim username sitename c1 passwordType masterPassword
              = some (pw, err)
            ∧ (err ≠ none ↔ (passwordType ∉ GetPasswordTypeMap.map Prod.fst
                  ∨ ∃ e, prim.scryptKey masterPassword (masterSalt username)
                      mpN mpR mpP mpDkLen = .error e))) := by
  have hi : sitePasswordInfo sitename c1 = sitePasswordInfo sitename c2 :=
    (sitePasswordInfo_eq_iff sitename c1 c2).mpr h
  refine ⟨⟨_, _, _, _, ?_, ?_, ?_, ?_, ?_, sitePasswordInfo_layout sitename c1⟩,
    sitePasswordInfo_eq_iff sitename, hi, ?_, ?_⟩
  · exact Nat.mod_lt _ (by norm_num)
  · exact Nat.mod_lt _ (by norm_num)
  · exact Nat.mod_lt _ (by norm_num)
  · exact Nat.mod_lt _ (by norm_num)
  · rw [bigEndian_decode _ (uint32_lt c1)]
    exact uint32_cast c1
  · unfold Password
    rw [hi]
  · intro hH
    exact Password_returns prim username sitename c1 passwordType masterPassword hH

theorem Password_counter_mod_witness :
    (-1 : Int) % 2 ^ 32 = (4294967295 : Int) % 2 ^ 32
      ∧ (∃ b0 b1 b2 b3, b0 < 256 ∧ b1 < 256 ∧ b2 < 256 ∧ b3 < 256
          ∧ ((b0 * 2 ^ 24 + b1 * 2 ^ 16 + b2 * 2 ^ 8 + b3 : Nat) : Int) = (-1 : Int) % 2 ^ 32
          ∧ sitePasswordInfo exampleSite (-1)
              = constantSaltBytes ++ putUint32BE (uint32 (exampleSite.length : Int))
                ++ exampleSite ++ [b0, b1, b2, b3])
      ∧ (∀ d1 d2 : Int, sitePasswordInfo exampleSite d1 = sitePasswordInfo exampleSite d2
            ↔ d1 % 2 ^ 32 = d2 % 2 ^ 32)
      ∧ sitePasswordInfo exampleSite (-1) = sitePasswordInfo exampleSite 4294967295
      ∧ Password counterPrim exampleUser exampleSite (-1) "p" exampleMaster
          = Password counterPrim exampleUser exampleSite 4294967295 "p" exampleMaster
      ∧ (∃ pw err, Password counterPrim exampleUser exampleSite (-1) "p" exampleMaster
            = some (pw, err)
          ∧ (err ≠ none ↔ ("p" ∉ GetPasswordTypeMap.map Prod.fst
                ∨ ∃ e, counterPrim.scryptKey exampleMaster (masterSalt exampleUser)
                    mpN mpR mpP mpDkLen = .error e)))
      ∧ Password counterPrim exampleUser exampleSite (-1) "p" exampleMaster
          = some ("fafg tew kurtepa bam", none)
      ∧ Password counterPrim exampleUser exampleSite 1 "p" exampleMaster
          ≠ Password counterPrim exampleUser exampleSite 2 "p" exampleMaster :=
  have hw := Password_counter_mod counterPrim exampleUser exampleSite (-1) 4294967295 "p"
    exampleMaster (by decide)
  ⟨by decide, hw.1, hw.2.1, hw.2.2.1, hw.2.2.2.1,
   hw.2.2.2.2 (fun _ _ => by simp [counterPrim]), by decide, by decide⟩

/-- The result of `Password` depends on the package state it reads: in a state where the caller
has deleted the key "p" from the returned map, the call that succeeds in the initial state
reports an unknown type. -/
theorem PasswordSt_reads_templateMap :
    (PasswordSt examplePrim exampleUser exampleSite 3 "p" exampleMaster initialState).1
        = some ("kiz quhwumami soke", none)
      ∧ (PasswordSt examplePrim exampleUser exampleSite 3 "p" exampleMaster mutatedState).1
        = some ("", some "unknown password type: p") := by
  decide

end MasterPassword
